import Mathlib

/-!
# Breeze window decoration: geometry engine

A shallow embedding of `kdecoration/breezedecoration.cpp` (namespace `Breeze`):
border sizes, frame margins, button geometry and the caption rectangle.

Conventions of the embedding.

* C++ `int` values are `Int`. Signed overflow is undefined in C++, so the
  embedding describes the defined behaviour only; every quantity is a pixel
  size or a small multiple of one.
* `int / int` is `Int.tdiv` (truncation toward zero).
* `int * 1.5` converted back to `int` is exact in binary floating point for a
  pixel-sized `int` (the product is a half-integer) and the conversion
  truncates toward zero, so it is `Int.tdiv (3 * n) 2`.
* `qreal` values that the code only ever builds from `int`s (button and group
  geometry, offsets) are `Int`.
* `m_internalSettings` is a pointer that `borderSize` tests for null; it is an
  `Option`, and a function that dereferences it without a test returns
  `Option` and is `none` exactly when it would dereference null.
* Constants and predicates declared in headers that are not part of the
  sources at hand are parameters: the constants are the fields of
  `Constants`, the predicates `hideTitleBar`, `isMaximized`,
  `isMaximizedHorizontally` and `isMaximizedVertically` are fields of
  `Decoration`. The helpers `hasNoBorders`, `hasNoSideBorders` and the setters
  of `Button` are modelled from the specification and say so.
* The button groups belong to the host library; the embedding keeps their
  geometry, spacing and buttons as the decoration assigns and reads them and
  does not model the library's own re-layout of a group.
* A `qreal` is a `double`, whose value is a rational. The product
  `color.alpha() * m_opacity` of `outlineColor` is an IEEE-754 binary64
  multiplication: the exact product rounded to the nearest `double`, a tie going
  to the even significand (`roundDouble`). The gaussian weight of a gradient stop
  is taken exactly. The conversion of a `qreal` to `int` truncates toward zero; it
  is defined in C++ only for a value within the range of `int`, and the embedding
  describes that case. The library function `std::exp` is a parameter,
  `StdMath.exp`.
* The file-scope variables and the shadow objects they share live in `World`;
  a `QSharedPointer` is the address of its object. The texture is described by
  what `createShadow` paints into it, not by its pixels.
-/

namespace Breeze

/-! ## Qt value types -/

/-- Qt `QMargins(left, top, right, bottom)`. -/
structure QMargins where
  left : Int
  top : Int
  right : Int
  bottom : Int
  deriving DecidableEq, Repr

/-- Qt `QSize(width, height)`. -/
structure QSize where
  width : Int
  height : Int
  deriving DecidableEq, Repr

/-- Qt `QPointF(x, y)`, restricted to the integral values the code builds. -/
structure QPointF where
  x : Int
  y : Int
  deriving DecidableEq, Repr

/-- Qt `QRectF(topLeft, size)`, restricted to the integral values the code builds. -/
structure QRectF where
  x : Int
  y : Int
  width : Int
  height : Int
  deriving DecidableEq, Repr

/-- Qt `QRect`, stored as Qt stores it: the two corner pixels, both inclusive. -/
structure QRect where
  x1 : Int
  y1 : Int
  x2 : Int
  y2 : Int
  deriving DecidableEq, Repr

namespace QRect

/-- The constructor `QRect(x, y, width, height)`. -/
def ofXYWH (x y w h : Int) : QRect := ⟨x, y, x + w - 1, y + h - 1⟩

/-- The default constructor `QRect()`: the null rectangle. -/
def null : QRect := ⟨0, 0, -1, -1⟩

/-- The accessor `QRect::left()`. -/
def left (r : QRect) : Int := r.x1

/-- The accessor `QRect::right()`: the last column, `left() + width() - 1`. -/
def right (r : QRect) : Int := r.x2

/-- The accessor `QRect::width()`. -/
def width (r : QRect) : Int := r.x2 - r.x1 + 1

/-- The accessor `QRect::height()`. -/
def height (r : QRect) : Int := r.y2 - r.y1 + 1

/-- The setter `QRect::setTop(pos)`: moves the top edge, the bottom edge stays. -/
def setTop (r : QRect) (pos : Int) : QRect := { r with y1 := pos }

/-- The setter `QRect::setHeight(h)`: the top edge stays. -/
def setHeight (r : QRect) (h : Int) : QRect := { r with y2 := r.y1 + h - 1 }

/-- The mover `QRect::moveLeft(pos)`: the width is kept. -/
def moveLeft (r : QRect) (pos : Int) : QRect :=
  { r with x1 := pos, x2 := r.x2 + (pos - r.x1) }

end QRect

/-- The text alignments `captionRect` returns. -/
inductive Alignment where
  | AlignVCenter_AlignLeft
  | AlignVCenter_AlignRight
  | AlignCenter
  deriving DecidableEq, Repr

/-- Qt `Qt::Edges`, the set of window edges that touch a screen edge. -/
structure Edges where
  LeftEdge : Bool
  TopEdge : Bool
  RightEdge : Bool
  BottomEdge : Bool
  deriving DecidableEq, Repr

/-! ## Settings -/

/-- Constants declared in `breeze.h`: the exception-mask bit `BorderSize` and
the `Metrics` enumerators the decoration uses. Their values are parameters. -/
structure Constants where
  BorderSize : Int
  Frame_FrameRadius : Int
  TitleBar_TopMargin : Int
  TitleBar_BottomMargin : Int
  TitleBar_SideMargin : Int
  TitleBar_ButtonSpacing : Int
  Shadow_Overlap : Int
  deriving DecidableEq, Repr

/-- The enumeration `KDecoration2::BorderSize`; `other` stands for a value
that is none of the enumerators. -/
inductive KBorderSize where
  | None | NoSides | Tiny | Normal | Large | VeryLarge | Huge | VeryHuge | Oversized
  | other (raw : Int)
  deriving DecidableEq, Repr

/-- The border-size enumeration of `InternalSettings`; `other` stands for a
value that is none of the enumerators. -/
inductive InternalBorderSize where
  | BorderNone | BorderNoSides | BorderTiny | BorderNormal | BorderLarge
  | BorderVeryLarge | BorderHuge | BorderVeryHuge | BorderOversized
  | other (raw : Int)
  deriving DecidableEq, Repr

/-- The button-size enumeration of `InternalSettings`. -/
inductive ButtonSize where
  | ButtonSmall | ButtonDefault | ButtonLarge | ButtonVeryLarge
  | other (raw : Int)
  deriving DecidableEq, Repr

/-- The title-alignment enumeration of `InternalSettings`. -/
inductive TitleAlignment where
  | AlignLeft | AlignCenter | AlignCenterFullWidth | AlignRight
  | other (raw : Int)
  deriving DecidableEq, Repr

/-- What the code reads from `settings()` (`KDecoration2::DecorationSettings`). -/
structure DecorationSettings where
  smallSpacing : Int
  largeSpacing : Int
  gridUnit : Int
  borderSize : KBorderSize
  deriving DecidableEq, Repr

/-- What the code reads from `m_internalSettings` (`Breeze::InternalSettings`). -/
structure InternalSettings where
  mask : Int
  borderSize : InternalBorderSize
  buttonSize : ButtonSize
  titleAlignment : TitleAlignment
  drawBorderOnMaximizedWindows : Bool
  animationsEnabled : Bool
  shadowSize : Int
  shadowStrength : Int
  deriving DecidableEq, Repr

/-- What the code reads from `client().data()` (`KDecoration2::DecoratedClient`). -/
structure DecoratedClient where
  width : Int
  isActive : Bool
  isShaded : Bool
  adjacentScreenEdges : Edges
  deriving DecidableEq, Repr

/-! ## Buttons -/

/-- The enumeration `Button::Flag`. -/
inductive Flag where
  | FlagNone | FlagStandalone | FlagFirstInList | FlagLastInList
  deriving DecidableEq, Repr

/-- The part of a `Breeze::Button` that the decoration assigns. -/
structure Button where
  geometry : QRectF
  m_offset : QPointF
  m_iconSize : QSize
  m_flag : Flag
  deriving DecidableEq, Repr

namespace Button

/-- The setter `DecorationButton::setGeometry`. -/
def setGeometry (b : Button) (g : QRectF) : Button := { b with geometry := g }

/-- Modelled from the spec: `Button::setOffset` is declared in `breezebutton.h`. It stores
the offset at which the icon is drawn inside the button box ("offset so its
clickable/visual edge aligns exactly with the screen edge"). -/
def setOffset (b : Button) (value : QPointF) : Button := { b with m_offset := value }

/-- Modelled from the spec: `Button::setHorizontalOffset` is declared in `breezebutton.h`.
It replaces the horizontal component of the stored offset. -/
def setHorizontalOffset (b : Button) (value : Int) : Button :=
  { b with m_offset := { b.m_offset with x := value } }

/-- Modelled from the spec: `Button::setIconSize` is declared in `breezebutton.h`. It
stores the icon-size hint. -/
def setIconSize (b : Button) (value : QSize) : Button := { b with m_iconSize := value }

/-- Modelled from the spec: `Button::setFlag` is declared in `breezebutton.h`. It stores the
flag marking "first/last in an edge-aligned group". -/
def setFlag (b : Button) (value : Flag) : Button := { b with m_flag := value }

end Button

/-- The part of a `KDecoration2::DecorationButtonGroup` that the decoration
reads and assigns: its geometry, its spacing and its buttons in order. -/
structure DecorationButtonGroup where
  geometry : QRectF
  spacing : Int
  buttons : List Button
  deriving DecidableEq, Repr

namespace DecorationButtonGroup

/-- The setter `DecorationButtonGroup::setSpacing`. -/
def setSpacing (g : DecorationButtonGroup) (spacing : Int) : DecorationButtonGroup :=
  { g with spacing := spacing }

/-- The setter `DecorationButtonGroup::setPos`: the top-left corner moves, the size is kept. -/
def setPos (g : DecorationButtonGroup) (pos : QPointF) : DecorationButtonGroup :=
  { g with geometry := { g.geometry with x := pos.x, y := pos.y } }

end DecorationButtonGroup

/-! ## Colours and the animation object -/

/-- Qt `QColor`: a validity flag and the four 8-bit channels. -/
structure QColor where
  valid : Bool
  red : Int
  green : Int
  blue : Int
  alpha : Int
  deriving DecidableEq, Repr

namespace QColor

/-- The default constructor `QColor()`: the invalid colour. -/
def invalid : QColor := ⟨false, 0, 0, 0, 255⟩

/-- The accessor `QColor::isValid()`. -/
def isValid (c : QColor) : Bool := c.valid

/-- The setter `QColor::setAlpha(int)`; Qt clamps a value outside 0..255. -/
def setAlpha (c : QColor) (alpha : Int) : QColor := { c with alpha := max 0 (min alpha 255) }

end QColor

/-- The conversion of a `qreal` to `int` that C++ applies to an argument:
truncation toward zero. -/
def qrealToInt (x : ℚ) : Int := Int.tdiv x.num x.den

/-- The integer nearest a rational, a tie going to the even integer: the rounding
of a significand in the default IEEE-754 rounding mode. -/
def roundHalfEven (t : ℚ) : Int :=
  let f := ⌊t⌋
  if t - f < 1 / 2 then f
  else if 1 / 2 < t - f then f + 1
  else if f % 2 = 0 then f else f + 1

/-- The `double` that an IEEE-754 binary64 operation delivers when its exact result
is `x`: the nearest value with a 53-bit significand at the exponent of `x`, which is
at least -1022 (below it the values are subnormal and keep the spacing
`2 ^ (-1074)`), a tie going to the even significand. An exact result beyond the
largest finite `double` overflows; the values rounded here are far below it and
that case is not described. -/
def roundDouble (x : ℚ) : ℚ :=
  if x = 0 then 0
  else
    let e : Int := max (Int.log 2 |x|) (-1022)
    let ulp : ℚ := (2 : ℚ) ^ (e - 52)
    (if 0 ≤ x then 1 else -1) * (roundHalfEven (|x| / ulp) : ℚ) * ulp

/-- The colour roles of `QPalette` that the decoration reads. -/
structure QPalette where
  Window : QColor
  Highlight : QColor
  Shadow : QColor
  deriving DecidableEq, Repr

/-- The member `m_colorSettings` (`Breeze::ColorSettings`): the palette and the
title-bar and font colours of the active and the inactive state. -/
structure ColorSettings where
  palette : QPalette
  activeTitleBar : QColor
  inactiveTitleBar : QColor
  activeFont : QColor
  inactiveFont : QColor
  deriving DecidableEq, Repr

namespace ColorSettings

/-- Modelled from the spec: `ColorSettings::titleBar(bool)` is declared in
`breezecolorsettings.h`. "The color for the current discrete active flag": the
active title-bar colour for `true`, the inactive one for `false`. -/
def titleBar (c : ColorSettings) (active : Bool) : QColor :=
  if active then c.activeTitleBar else c.inactiveTitleBar

/-- Modelled from the spec: `ColorSettings::font(bool)` is declared in
`breezecolorsettings.h`. "Font color follows the same mixing rule as the title-bar
color": the active font colour for `true`, the inactive one for `false`. -/
def font (c : ColorSettings) (active : Bool) : QColor :=
  if active then c.activeFont else c.inactiveFont

end ColorSettings

/-- The function `KColorUtils::mix` of the host library, a parameter of the
embedding. -/
structure KColorUtils where
  mix : QColor → QColor → ℚ → QColor

/-- The enumeration `QAbstractAnimation::Direction`. -/
inductive Direction where
  | Forward | Backward
  deriving DecidableEq, Repr

/-- The enumeration `QAbstractAnimation::State`. -/
inductive AnimationState where
  | Stopped | Paused | Running
  deriving DecidableEq, Repr

/-- The part of the `QPropertyAnimation` object `m_animation` that the decoration
reads and sets: its direction and its state. -/
structure QPropertyAnimation where
  direction : Direction
  state : AnimationState
  deriving DecidableEq, Repr

namespace QPropertyAnimation

/-- Qt `QAbstractAnimation::setDirection`. -/
def setDirection (a : QPropertyAnimation) (direction : Direction) : QPropertyAnimation :=
  { a with direction := direction }

/-- Qt `QAbstractAnimation::start`: the state becomes `Running` (the animation has
a positive duration). The values a running animation then writes to the
`opacity` property, through `setOpacity`, are driven by Qt's timer and are not
part of the embedding. -/
def start (a : QPropertyAnimation) : QPropertyAnimation :=
  { a with state := AnimationState.Running }

end QPropertyAnimation

/-- The part of the `SizeGrip` widget `m_sizeGrip` that the decoration touches:
the number of repaints requested from it. -/
structure SizeGrip where
  updateRequests : Nat
  deriving DecidableEq, Repr

/-! ## The decoration -/

/-- The state of one `Breeze::Decoration` as far as the code reads and writes it.

`hideTitleBar`, `isMaximized`, `isMaximizedHorizontally` and
`isMaximizedVertically` are the values of the header's predicates of the same
names. `captionTextHeight` is `QFontMetrics(s->font()).boundingRect(caption).height()`,
`captionBoundingRect` is `settings()->fontMetrics().boundingRect(caption).toRect()`,
`size` is `size()`.

`m_opacity` is a `qreal`, a `double`; its value is a rational.
`updateRequests` counts the calls of `update()`, the requests to repaint the
decoration. `shadow` is the shared pointer the decoration holds, `shadow()`: the
address of a `DecorationShadow`, or `none` for the null pointer. -/
structure Decoration where
  settings : DecorationSettings
  m_internalSettings : Option InternalSettings
  client : DecoratedClient
  hideTitleBar : Bool
  isMaximized : Bool
  isMaximizedHorizontally : Bool
  isMaximizedVertically : Bool
  captionTextHeight : Int
  captionBoundingRect : QRect
  size : QSize
  borders : QMargins
  resizeOnlyBorders : QMargins
  titleBar : QRect
  m_leftButtons : DecorationButtonGroup
  m_rightButtons : DecorationButtonGroup
  m_colorSettings : ColorSettings
  m_useSeparator : Bool
  m_animation : QPropertyAnimation
  m_opacity : ℚ
  m_sizeGrip : Option SizeGrip
  updateRequests : Nat
  shadow : Option Nat
  deriving DecidableEq, Repr

namespace Decoration

/-- The accessor `Decoration::borderTop()`. -/
def borderTop (d : Decoration) : Int := d.borders.top

/-- The accessor `Decoration::borderLeft()`. -/
def borderLeft (d : Decoration) : Int := d.borders.left

/-- The accessor `Decoration::borderRight()`. -/
def borderRight (d : Decoration) : Int := d.borders.right

/-- The accessor `Decoration::borderBottom()`. -/
def borderBottom (d : Decoration) : Int := d.borders.bottom

/-- The setter `Decoration::setBorders`. -/
def setBorders (d : Decoration) (m : QMargins) : Decoration := { d with borders := m }

/-- The setter `Decoration::setResizeOnlyBorders`. -/
def setResizeOnlyBorders (d : Decoration) (m : QMargins) : Decoration :=
  { d with resizeOnlyBorders := m }

/-- The setter `Decoration::setTitleBar`. -/
def setTitleBar (d : Decoration) (r : QRect) : Decoration := { d with titleBar := r }

/-- The setter `Decoration::setShadow`. -/
def setShadow (d : Decoration) (shadow : Option Nat) : Decoration := { d with shadow := shadow }

/-- The slot `Decoration::update()`: one more request to repaint the decoration. -/
def update (d : Decoration) : Decoration := { d with updateRequests := d.updateRequests + 1 }

end Decoration

/-- The lambda `maxSize` of `Decoration::borderSize`: `qMax(size, minSize)` with `minSize = 4`. -/
def maxSize (size : Int) : Int :=
  let minSize : Int := 4
  max size minSize

/-- The function `Decoration::borderSize(bool bottom)`. -/
def borderSize (K : Constants) (d : Decoration) (bottom : Bool) : Int :=
  let baseSize := d.settings.smallSpacing
  let global : Int :=
    match d.settings.borderSize with
    | .None => 0
    | .NoSides => if bottom then maxSize baseSize else 0
    | .Tiny => maxSize baseSize
    | .Normal => maxSize (baseSize * 2)
    | .Large => maxSize (baseSize * 3)
    | .VeryLarge => maxSize (baseSize * 4)
    | .Huge => maxSize (baseSize * 5)
    | .VeryHuge => maxSize (baseSize * 6)
    | .Oversized => maxSize (baseSize * 10)
    | .other _ => maxSize baseSize
  match d.m_internalSettings with
  | some i =>
    if Int.land i.mask K.BorderSize ≠ 0 then
      match i.borderSize with
      | .BorderNone => 0
      | .BorderNoSides => if bottom then maxSize baseSize else 0
      | .BorderTiny => maxSize baseSize
      | .BorderNormal => maxSize (baseSize * 2)
      | .BorderLarge => maxSize (baseSize * 3)
      | .BorderVeryLarge => maxSize (baseSize * 4)
      | .BorderHuge => maxSize (baseSize * 5)
      | .BorderVeryHuge => maxSize (baseSize * 6)
      | .BorderOversized => maxSize (baseSize * 10)
      | .other _ => maxSize baseSize
    else global
  | none => global

/-- Modelled from the spec: `Decoration::hasNoBorders` is declared in `breezedecoration.h`.
"No border at all": the border-size setting in force (the per-instance one
when its mask flag is set, the global one otherwise) is the `none` tier. -/
def hasNoBorders (K : Constants) (d : Decoration) : Bool :=
  match d.m_internalSettings with
  | some i =>
    if Int.land i.mask K.BorderSize ≠ 0 then i.borderSize == .BorderNone
    else d.settings.borderSize == .None
  | none => d.settings.borderSize == .None

/-- Modelled from the spec: `Decoration::hasNoSideBorders` is declared in
`breezedecoration.h`. "No side borders": the border-size setting in force is
the `no-sides` tier. -/
def hasNoSideBorders (K : Constants) (d : Decoration) : Bool :=
  match d.m_internalSettings with
  | some i =>
    if Int.land i.mask K.BorderSize ≠ 0 then i.borderSize == .BorderNoSides
    else d.settings.borderSize == .NoSides
  | none => d.settings.borderSize == .NoSides

/-- The function `Decoration::buttonHeight()`. It dereferences `m_internalSettings`. -/
def buttonHeight (d : Decoration) : Option Int :=
  let baseSize := d.settings.gridUnit
  match d.m_internalSettings with
  | none => none
  | some i =>
    match i.buttonSize with
    | .ButtonSmall => some (Int.tdiv (baseSize * 3) 2)
    | .ButtonDefault => some (baseSize * 2)
    | .ButtonLarge => some (Int.tdiv (baseSize * 5) 2)
    | .ButtonVeryLarge => some (Int.tdiv (baseSize * 7) 2)
    | .other _ => some (baseSize * 2)

/-- The function `Decoration::captionHeight()`. -/
def captionHeight (K : Constants) (d : Decoration) : Int :=
  if d.hideTitleBar then d.borderTop
  else d.borderTop
    - d.settings.smallSpacing * (K.TitleBar_BottomMargin + K.TitleBar_TopMargin) - 1

/-- The lambda `testFlag` of `Decoration::recalculateBorders`:
`edges.testFlag(edge) && !m_internalSettings->drawBorderOnMaximizedWindows()`.
The pointer is dereferenced only when the edge flag is set. -/
def recalculateBorders.testFlag (d : Decoration) (edge : Bool) : Option Bool :=
  if edge then d.m_internalSettings.map (fun i => !i.drawBorderOnMaximizedWindows)
  else some false

/-- The function `Decoration::recalculateBorders()`. -/
def recalculateBorders (K : Constants) (d : Decoration) : Option Decoration := do
  let s := d.settings
  let c := d.client
  let edges := c.adjacentScreenEdges
  -- left, right and bottom borders
  let left : Int ←
    (if d.isMaximizedHorizontally then some 0
     else (recalculateBorders.testFlag d edges.LeftEdge).map
       fun f => if f then 0 else borderSize K d false)
  let right : Int ←
    (if d.isMaximizedHorizontally then some 0
     else (recalculateBorders.testFlag d edges.RightEdge).map
       fun f => if f then 0 else borderSize K d false)
  let bottom : Int ←
    (if d.isMaximizedVertically || c.isShaded then some 0
     else (recalculateBorders.testFlag d edges.BottomEdge).map
       fun f => if f then 0 else borderSize K d true)
  -- text or button height, the padding below with the extra pixel used for
  -- the active window outline, the padding above
  let baseSize := d.settings.smallSpacing
  let top : Int ←
    (if d.hideTitleBar then some bottom
     else (buttonHeight d).map
       fun bh => 0 + max d.captionTextHeight bh + (baseSize * K.TitleBar_BottomMargin + 1)
         + baseSize * K.TitleBar_TopMargin)
  let d := d.setBorders ⟨left, top, right, bottom⟩
  -- extended sizes
  let extSize := s.largeSpacing
  let extSides := if hasNoBorders K d then extSize else if hasNoSideBorders K d then extSize else 0
  let extBottom := if hasNoBorders K d then extSize else 0
  pure (d.setResizeOnlyBorders ⟨extSides, 0, extSides, extBottom⟩)

/-- The local `leftOffset` of `Decoration::captionRect()`. -/
def captionRect.leftOffset (K : Constants) (d : Decoration) : Int :=
  d.m_leftButtons.geometry.x + d.m_leftButtons.geometry.width
    + K.TitleBar_SideMargin * d.settings.smallSpacing

/-- The local `rightOffset` of `Decoration::captionRect()`. -/
def captionRect.rightOffset (K : Constants) (d : Decoration) : Int :=
  d.size.width - d.m_rightButtons.geometry.x + K.TitleBar_SideMargin * d.settings.smallSpacing

/-- The local `yOffset` of `Decoration::captionRect()`. -/
def captionRect.yOffset (K : Constants) (d : Decoration) : Int :=
  d.settings.smallSpacing * K.TitleBar_TopMargin

/-- The local `maxRect` of `Decoration::captionRect()`. -/
def captionRect.maxRect (K : Constants) (d : Decoration) : QRect :=
  QRect.ofXYWH (captionRect.leftOffset K d) (captionRect.yOffset K d)
    (d.size.width - captionRect.leftOffset K d - captionRect.rightOffset K d) (captionHeight K d)

/-- The local `fullRect` of `Decoration::captionRect()`: the full caption rect. -/
def captionRect.fullRect (K : Constants) (d : Decoration) : QRect :=
  QRect.ofXYWH 0 (captionRect.yOffset K d) d.size.width (captionHeight K d)

/-- The local `boundingRect` of `Decoration::captionRect()` after its three
adjustments: the text bounding rect, moved into the caption band and centered
across the full width. -/
def captionRect.boundingRect (K : Constants) (d : Decoration) : QRect :=
  let boundingRect := d.captionBoundingRect
  let boundingRect := boundingRect.setTop (captionRect.yOffset K d)
  let boundingRect := boundingRect.setHeight (captionHeight K d)
  boundingRect.moveLeft (Int.tdiv (d.size.width - boundingRect.width) 2)

/-- The function `Decoration::captionRect()`. It dereferences `m_internalSettings`
when the title bar is shown. -/
def captionRect (K : Constants) (d : Decoration) : Option (QRect × Alignment) :=
  if d.hideTitleBar then some (QRect.null, Alignment.AlignCenter)
  else
    let leftOffset := captionRect.leftOffset K d
    let rightOffset := captionRect.rightOffset K d
    let maxRect := captionRect.maxRect K d
    let fullWidth : QRect × Alignment :=
      let fullRect := captionRect.fullRect K d
      let boundingRect := captionRect.boundingRect K d
      if boundingRect.left < leftOffset then (maxRect, Alignment.AlignVCenter_AlignLeft)
      else if boundingRect.right > d.size.width - rightOffset then
        (maxRect, Alignment.AlignVCenter_AlignRight)
      else (fullRect, Alignment.AlignCenter)
    match d.m_internalSettings with
    | none => none
    | some i =>
      match i.titleAlignment with
      | .AlignLeft => some (maxRect, Alignment.AlignVCenter_AlignLeft)
      | .AlignRight => some (maxRect, Alignment.AlignVCenter_AlignRight)
      | .AlignCenter => some (maxRect, Alignment.AlignCenter)
      | .AlignCenterFullWidth => some fullWidth
      | .other _ => some fullWidth

/-- Applies `f` to `buttons().front()`; an empty list stays empty. -/
def modifyFront (f : Button → Button) : List Button → List Button
  | [] => []
  | b :: bs => f b :: bs

/-- Applies `f` to `buttons().back()`; an empty list stays empty. -/
def modifyBack (f : Button → Button) : List Button → List Button
  | [] => []
  | [b] => [f b]
  | b :: c :: bs => b :: modifyBack f (c :: bs)

/-- The maximized top padding of `Decoration::updateButtonsGeometry()`:
`isMaximized() ? s->smallSpacing()*Metrics::TitleBar_TopMargin : 0`. -/
def updateButtonsGeometry.maximizedPadding (K : Constants) (d : Decoration) : Int :=
  if d.isMaximized then d.settings.smallSpacing * K.TitleBar_TopMargin else 0

/-- The local `bHeight` of `Decoration::updateButtonsGeometry()`. -/
def updateButtonsGeometry.bHeight (K : Constants) (d : Decoration) : Int :=
  captionHeight K d + updateButtonsGeometry.maximizedPadding K d

/-- The local `verticalOffset` of `Decoration::updateButtonsGeometry()`; `bh` is
the value of `buttonHeight()`. -/
def updateButtonsGeometry.verticalOffset (K : Constants) (d : Decoration) (bh : Int) : Int :=
  updateButtonsGeometry.maximizedPadding K d + Int.tdiv (captionHeight K d - bh) 2

/-- The body of the loop of `Decoration::updateButtonsGeometry()` over the buttons
of both groups; `bh` is the value of `buttonHeight()`, the local `bWidth`. -/
def updateButtonsGeometry.each (K : Constants) (d : Decoration) (bh : Int)
    (button : Button) : Button :=
  let bWidth := bh
  ((button.setGeometry ⟨0, 0, bWidth, updateButtonsGeometry.bHeight K d⟩).setOffset
    ⟨0, updateButtonsGeometry.verticalOffset K d bh⟩).setIconSize ⟨bWidth, bWidth⟩

/-- What `Decoration::updateButtonsGeometry()` does to the first button of the
left group when the decoration is maximized horizontally. -/
def updateButtonsGeometry.front (K : Constants) (d : Decoration) (bh : Int)
    (button : Button) : Button :=
  let bWidth := bh
  let hPadding := d.settings.smallSpacing * K.TitleBar_SideMargin
  ((button.setGeometry ⟨0, 0, bWidth + hPadding, updateButtonsGeometry.bHeight K d⟩).setFlag
    Flag.FlagFirstInList).setHorizontalOffset hPadding

/-- What `Decoration::updateButtonsGeometry()` does to the last button of the
right group when the decoration is maximized horizontally. -/
def updateButtonsGeometry.back (K : Constants) (d : Decoration) (bh : Int)
    (button : Button) : Button :=
  let bWidth := bh
  let hPadding := d.settings.smallSpacing * K.TitleBar_SideMargin
  (button.setGeometry ⟨0, 0, bWidth + hPadding, updateButtonsGeometry.bHeight K d⟩).setFlag
    Flag.FlagLastInList

/-- The left-group block of `Decoration::updateButtonsGeometry()`, entered with
the group as the loop left it. -/
def updateButtonsGeometry.left (K : Constants) (d : Decoration) (bh : Int)
    (m_leftButtons : DecorationButtonGroup) : DecorationButtonGroup :=
  let s := d.settings
  if !m_leftButtons.buttons.isEmpty then
    -- spacing
    let m_leftButtons := m_leftButtons.setSpacing (s.smallSpacing * K.TitleBar_ButtonSpacing)
    -- padding
    let vPadding := if d.isMaximized then 0 else s.smallSpacing * K.TitleBar_TopMargin
    let hPadding := s.smallSpacing * K.TitleBar_SideMargin
    if d.isMaximizedHorizontally then
      -- add offsets on the side buttons, to preserve padding, but satisfy Fitts law
      let m_leftButtons := { m_leftButtons with
        buttons := modifyFront (updateButtonsGeometry.front K d bh) m_leftButtons.buttons }
      m_leftButtons.setPos ⟨0, vPadding⟩
    else m_leftButtons.setPos ⟨hPadding + d.borderLeft, vPadding⟩
  else m_leftButtons

/-- The right-group block of `Decoration::updateButtonsGeometry()`, entered with
the group as the loop left it. -/
def updateButtonsGeometry.right (K : Constants) (d : Decoration) (bh : Int)
    (m_rightButtons : DecorationButtonGroup) : DecorationButtonGroup :=
  let s := d.settings
  if !m_rightButtons.buttons.isEmpty then
    -- spacing
    let m_rightButtons := m_rightButtons.setSpacing (s.smallSpacing * K.TitleBar_ButtonSpacing)
    -- padding
    let vPadding := if d.isMaximized then 0 else s.smallSpacing * K.TitleBar_TopMargin
    let hPadding := s.smallSpacing * K.TitleBar_SideMargin
    if d.isMaximizedHorizontally then
      let m_rightButtons := { m_rightButtons with
        buttons := modifyBack (updateButtonsGeometry.back K d bh) m_rightButtons.buttons }
      m_rightButtons.setPos ⟨d.size.width - m_rightButtons.geometry.width, vPadding⟩
    else
      m_rightButtons.setPos
        ⟨d.size.width - m_rightButtons.geometry.width - hPadding - d.borderRight, vPadding⟩
  else m_rightButtons

/-- The function `Decoration::updateButtonsGeometry()`. It dereferences
`m_internalSettings` through `buttonHeight()`. -/
def updateButtonsGeometry (K : Constants) (d : Decoration) : Option Decoration :=
  (buttonHeight d).map fun bh =>
    -- adjust button position
    let m_leftButtons := { d.m_leftButtons with
      buttons := d.m_leftButtons.buttons.map (updateButtonsGeometry.each K d bh) }
    let m_rightButtons := { d.m_rightButtons with
      buttons := d.m_rightButtons.buttons.map (updateButtonsGeometry.each K d bh) }
    { d with
      m_leftButtons := updateButtonsGeometry.left K d bh m_leftButtons
      m_rightButtons := updateButtonsGeometry.right K d bh m_rightButtons }

/-- The function `Decoration::setOpacity(qreal)`. -/
def setOpacity (d : Decoration) (value : ℚ) : Decoration :=
  if d.m_opacity = value then d
  else
    let d := { d with m_opacity := value }
    let d := d.update
    match d.m_sizeGrip with
    | some grip => { d with m_sizeGrip := some { grip with updateRequests := grip.updateRequests + 1 } }
    | none => d

/-- The function `Decoration::titleBarColor()`. -/
def titleBarColor (U : KColorUtils) (d : Decoration) : QColor :=
  if d.hideTitleBar then d.m_colorSettings.titleBar false
  else if d.m_animation.state = AnimationState.Running then
    U.mix d.m_colorSettings.inactiveTitleBar d.m_colorSettings.activeTitleBar d.m_opacity
  else d.m_colorSettings.titleBar d.client.isActive

/-- The function `Decoration::outlineColor()`. In `color.alpha()*m_opacity` the
`int` alpha converts to `double` exactly, the product is rounded to a `double`, and
the `double` handed to `setAlpha(int)` is truncated to `int`. -/
def outlineColor (d : Decoration) : QColor :=
  if !d.m_useSeparator then QColor.invalid
  else if d.m_animation.state = AnimationState.Running then
    let color := d.m_colorSettings.palette.Highlight
    color.setAlpha (qrealToInt (roundDouble (color.alpha * d.m_opacity)))
  else if d.client.isActive then d.m_colorSettings.palette.Highlight
  else QColor.invalid

/-- The function `Decoration::fontColor()`. -/
def fontColor (U : KColorUtils) (d : Decoration) : QColor :=
  if d.m_animation.state = AnimationState.Running then
    U.mix d.m_colorSettings.inactiveFont d.m_colorSettings.activeFont d.m_opacity
  else d.m_colorSettings.font d.client.isActive

/-- The function `Decoration::updateTitleBar()`. -/
def updateTitleBar (K : Constants) (d : Decoration) : Decoration :=
  let s := d.settings
  let maximized := d.isMaximized
  let width := if maximized then d.client.width
    else d.client.width - 2 * s.largeSpacing * K.TitleBar_SideMargin
  let height := if maximized then d.borderTop
    else d.borderTop - s.smallSpacing * K.TitleBar_TopMargin
  let x := if maximized then 0 else s.largeSpacing * K.TitleBar_SideMargin
  let y := if maximized then 0 else s.smallSpacing * K.TitleBar_TopMargin
  d.setTitleBar (QRect.ofXYWH x y width height)

/-- The function `Decoration::updateAnimationState()`. It dereferences
`m_internalSettings`. -/
def updateAnimationState (d : Decoration) : Option Decoration :=
  d.m_internalSettings.map fun i =>
    if i.animationsEnabled then
      let m_animation := d.m_animation.setDirection
        (if d.client.isActive then Direction.Forward else Direction.Backward)
      let m_animation :=
        if m_animation.state ≠ AnimationState.Running then m_animation.start else m_animation
      { d with m_animation := m_animation }
    else d.update

/-! ## The shared shadow -/

/-- The shadow texture, a `QImage`, described by what `createShadow` paints into
it: its size, the radial gradient (centre, radius, base colour of the stops and
the strength that scales their alpha) and the contrast rectangle with its pen. -/
structure QImage where
  width : Int
  height : Int
  gradientCenterX : Int
  gradientCenterY : Int
  gradientRadius : Int
  shadowColor : QColor
  shadowStrength : Int
  contrastRect : QRect
  contrastPen : QColor
  deriving DecidableEq, Repr

/-- The object `KDecoration2::DecorationShadow`. -/
structure DecorationShadow where
  padding : QMargins
  innerShadowRect : QRect
  shadow : QImage
  deriving DecidableEq, Repr

/-- The process: the four file-scope variables, the `DecorationShadow` objects
made so far by `QSharedPointer::create` (the address of an object is its index),
and the live decorations (a decoration is named by its index). A shared pointer
is an address, `none` is the null pointer. -/
structure World where
  g_sDecoCount : Int
  g_shadowSize : Int
  g_shadowStrength : Int
  g_sShadow : Option Nat
  shadows : List DecorationShadow
  decorations : List Decoration
  deriving DecidableEq, Repr

namespace World

/-- The process at start-up: the initial values of the file-scope variables, no
shadow object, no decoration. -/
def initial : World :=
  { g_sDecoCount := 0, g_shadowSize := 0, g_shadowStrength := 0, g_sShadow := none,
    shadows := [], decorations := [] }

/-- The shadow object a shared pointer refers to. -/
def deref (w : World) (p : Option Nat) : Option DecorationShadow :=
  p.bind fun a => w.shadows[a]?

end World

/-- The lambda `gradientStopColor` of `Decoration::createShadow()`. -/
def createShadow.gradientStopColor (color : QColor) (alpha : Int) : QColor :=
  color.setAlpha alpha

/-- The local `shadowOffset` of `Decoration::createShadow()`, for the shadow size
just stored in `g_shadowSize`. -/
def createShadow.shadowOffset (K : Constants) (g_shadowSize : Int) : Int :=
  max (Int.tdiv (6 * g_shadowSize) 16) (K.Shadow_Overlap * 2)

/-- The object `decorationShadow` that `Decoration::createShadow()` builds on a
cache miss, from the values just stored in `g_shadowSize` and `g_shadowStrength`
and the shadow colour of the palette. -/
def createShadow.decorationShadow (K : Constants) (g_shadowSize g_shadowStrength : Int)
    (shadowColor : QColor) : DecorationShadow :=
  let shadowOffset := createShadow.shadowOffset K g_shadowSize
  { padding :=
      ⟨g_shadowSize - shadowOffset, g_shadowSize - shadowOffset, g_shadowSize, g_shadowSize⟩
    innerShadowRect := QRect.ofXYWH
      (g_shadowSize - shadowOffset + K.Shadow_Overlap)
      (g_shadowSize - shadowOffset + K.Shadow_Overlap)
      (shadowOffset - 2 * K.Shadow_Overlap)
      (shadowOffset - 2 * K.Shadow_Overlap)
    shadow :=
      { width := 2 * g_shadowSize
        height := 2 * g_shadowSize
        gradientCenterX := g_shadowSize
        gradientCenterY := g_shadowSize
        gradientRadius := g_shadowSize
        shadowColor := shadowColor
        shadowStrength := g_shadowStrength
        contrastRect := QRect.ofXYWH (g_shadowSize - shadowOffset) (g_shadowSize - shadowOffset)
          shadowOffset shadowOffset
        contrastPen := createShadow.gradientStopColor shadowColor g_shadowStrength } }

/-- The function `Decoration::createShadow()`, called on the live decoration `k`.
It dereferences `m_internalSettings`; it is `none` also when `k` is not live. -/
def createShadow (K : Constants) (w : World) (k : Nat) : Option World :=
  match w.decorations[k]? with
  | none => none
  | some d =>
    match d.m_internalSettings with
    | none => none
    | some i =>
      -- assign global shadow if exists and parameters match
      if w.g_sShadow.isSome && w.g_shadowSize == i.shadowSize
          && w.g_shadowStrength == i.shadowStrength then
        some { w with decorations := w.decorations.set k (d.setShadow w.g_sShadow) }
      else
        -- assign parameters
        let g_shadowSize := i.shadowSize
        let g_shadowStrength := i.shadowStrength
        -- setup shadow, create image, create gradient, fill, contrast pixel
        let shadowColor := d.m_colorSettings.palette.Shadow
        let decorationShadow :=
          createShadow.decorationShadow K g_shadowSize g_shadowStrength shadowColor
        let address := w.shadows.length
        some
          { w with
            g_shadowSize := g_shadowSize
            g_shadowStrength := g_shadowStrength
            shadows := w.shadows ++ [decorationShadow]
            g_sShadow := some address
            decorations := w.decorations.set k (d.setShadow (some address)) }

/-- The constructor `Decoration::Decoration`: one more live decoration, holding no
shadow; `d` gives the other members of the new object. -/
def construct (w : World) (d : Decoration) : World :=
  { w with
    g_sDecoCount := w.g_sDecoCount + 1
    decorations := w.decorations ++ [d.setShadow none] }

/-- The function `Decoration::deleteSizeGrip()`. -/
def deleteSizeGrip (d : Decoration) : Decoration :=
  match d.m_sizeGrip with
  | some _ => { d with m_sizeGrip := none }
  | none => d

/-- The function `std::exp` of the C library, a parameter of the embedding: a
`double` is a rational, and so is the value the library returns. -/
structure StdMath where
  exp : ℚ → ℚ

/-- The stops of a Qt `QGradient`, kept sorted by position. -/
abbrev QGradientStops := List (ℚ × QColor)

/-- The search-and-store loop of Qt `QGradient::setColorAt`: the stop goes before
the first stop that is not left of it, and replaces that one when it sits at the
same position. -/
def QGradient.insertStop : QGradientStops → ℚ → QColor → QGradientStops
  | [], pos, color => [(pos, color)]
  | (p, c) :: rest, pos, color =>
    if p < pos then (p, c) :: QGradient.insertStop rest pos color
    else if p = pos then (pos, color) :: rest
    else (pos, color) :: (p, c) :: rest

/-- Qt `QGradient::setColorAt(pos, color)`; a position outside 0..1 is refused. -/
def QGradient.setColorAt (stops : QGradientStops) (pos : ℚ) (color : QColor) : QGradientStops :=
  if pos > 1 ∨ pos < 0 then stops else QGradient.insertStop stops pos color

/-- The lambda `alpha` of `Decoration::createShadow()`, the gaussian
`std::exp( -x*x/0.15 )`. -/
def createShadow.alpha (M : StdMath) (x : ℚ) : ℚ := M.exp (-x * x / 0.15)

/-- The stops of `radialGradient` in `Decoration::createShadow()`: the loop over
`i = 0 .. 9` with `x = qreal(i)/9`, then the stop at position 1. The `qreal`
`alpha(x)*g_shadowStrength` is handed to the `int` parameter of
`gradientStopColor`. -/
def createShadow.radialGradient (M : StdMath) (shadowColor : QColor) (g_shadowStrength : Int) :
    QGradientStops :=
  let radialGradient := (List.range 10).foldl
    (fun radialGradient (i : Nat) =>
      let x : ℚ := (i : ℚ) / 9
      QGradient.setColorAt radialGradient x
        (createShadow.gradientStopColor shadowColor
          (qrealToInt (createShadow.alpha M x * g_shadowStrength))))
    []
  QGradient.setColorAt radialGradient 1 (createShadow.gradientStopColor shadowColor 0)

/-- The stops of the gradient painted into a shadow texture: those
`createShadow` builds from the texture's shadow colour and strength. -/
def QImage.gradientStops (M : StdMath) (image : QImage) : QGradientStops :=
  createShadow.radialGradient M image.shadowColor image.shadowStrength

/-- The border-size tiers the specification names; `outside` is any value
outside the ladder. -/
inductive Tier where
  | None | NoSides | Tiny | Normal | Large | VeryLarge | Huge | VeryHuge | Oversized
  | outside
  deriving DecidableEq, Repr

/-- The tier a global `KDecoration2::BorderSize` value names. -/
def Tier.ofGlobal : KBorderSize → Tier
  | .None => .None
  | .NoSides => .NoSides
  | .Tiny => .Tiny
  | .Normal => .Normal
  | .Large => .Large
  | .VeryLarge => .VeryLarge
  | .Huge => .Huge
  | .VeryHuge => .VeryHuge
  | .Oversized => .Oversized
  | .other _ => .outside

/-- The tier a per-instance `InternalSettings` border-size value names. -/
def Tier.ofInternal : InternalBorderSize → Tier
  | .BorderNone => .None
  | .BorderNoSides => .NoSides
  | .BorderTiny => .Tiny
  | .BorderNormal => .Normal
  | .BorderLarge => .Large
  | .BorderVeryLarge => .VeryLarge
  | .BorderHuge => .Huge
  | .BorderVeryHuge => .VeryHuge
  | .BorderOversized => .Oversized
  | .other _ => .outside

/-- The tier consulted, in the specification's words: the per-instance border
size when the internal settings exist and their mask has the `BorderSize` bit
set, the global decoration setting otherwise. -/
def consultedTier (K : Constants) (d : Decoration) : Tier :=
  match d.m_internalSettings with
  | some i =>
    if Int.land i.mask K.BorderSize ≠ 0 then Tier.ofInternal i.borderSize
    else Tier.ofGlobal d.settings.borderSize
  | none => Tier.ofGlobal d.settings.borderSize

/-- The specification's ladder: `max(k*b, 4)` with `k = 1, 2, 3, 4, 5, 6, 10` for
Tiny .. Oversized, `0` for None, for NoSides `0` on the sides and `max(b, 4)` at
the bottom, and the Tiny result outside the ladder. -/
def ladderBorderSize (t : Tier) (b : Int) (bottom : Bool) : Int :=
  match t with
  | .None => 0
  | .NoSides => if bottom then max b 4 else 0
  | .Tiny => max (1 * b) 4
  | .Normal => max (2 * b) 4
  | .Large => max (3 * b) 4
  | .VeryLarge => max (4 * b) 4
  | .Huge => max (5 * b) 4
  | .VeryHuge => max (6 * b) 4
  | .Oversized => max (10 * b) 4
  | .outside => max (1 * b) 4

/-- The alpha of the gradient stop at position `i/9`, in the specification's
words: `strength * exp(-(i/9)^2 / 0.15)` truncated to an integer, except that the
stop at position 1 is fully transparent. -/
def specStopAlpha (M : StdMath) (strength : Int) (i : Nat) : Int :=
  if i ≤ 8 then qrealToInt (strength * M.exp (-(((i : ℚ) / 9) ^ 2) / 0.15)) else 0

/-- The integer `q` is the half of `n` rounded toward zero. -/
def IsHalfTowardZero (n q : Int) : Prop :=
  (0 ≤ n → n - 1 ≤ 2 * q ∧ 2 * q ≤ n) ∧ (n ≤ 0 → n ≤ 2 * q ∧ 2 * q ≤ n + 1)

/-! ## Sample inputs -/

/-- The values of the constants in `breeze.h`. -/
def sampleConstants : Constants :=
  { BorderSize := 16
    Frame_FrameRadius := 3
    TitleBar_TopMargin := 2
    TitleBar_BottomMargin := 2
    TitleBar_SideMargin := 2
    TitleBar_ButtonSpacing := 2
    Shadow_Overlap := 3 }

/-- A button before any geometry has been assigned. -/
def sampleButton : Button :=
  { geometry := ⟨0, 0, 0, 0⟩, m_offset := ⟨0, 0⟩, m_iconSize := ⟨0, 0⟩, m_flag := Flag.FlagNone }

/-- Sample per-instance settings: no exception mask, default button size,
full-width centered title. -/
def sampleInternalSettings : InternalSettings :=
  { mask := 0
    borderSize := InternalBorderSize.BorderNormal
    buttonSize := ButtonSize.ButtonDefault
    titleAlignment := TitleAlignment.AlignCenterFullWidth
    drawBorderOnMaximizedWindows := false
    animationsEnabled := true
    shadowSize := 16
    shadowStrength := 90 }

/-- The Breeze colours: a light window, a blue highlight, a black shadow, a
dark active and a grey inactive title bar. -/
def sampleColorSettings : ColorSettings :=
  { palette := { Window := ⟨true, 239, 240, 241, 255⟩, Highlight := ⟨true, 61, 174, 233, 255⟩,
                 Shadow := ⟨true, 0, 0, 0, 255⟩ }
    activeTitleBar := ⟨true, 71, 80, 87, 255⟩
    inactiveTitleBar := ⟨true, 239, 240, 241, 255⟩
    activeFont := ⟨true, 252, 252, 252, 255⟩
    inactiveFont := ⟨true, 189, 195, 199, 255⟩ }

/-- A floating window 400 pixels wide before layout: Tiny border tier, grid unit
12, small spacing 3, large spacing 12, a caption 15 pixels high and 30 wide, and
two buttons on each side. -/
def sampleDecoration : Decoration :=
  { settings := { smallSpacing := 3, largeSpacing := 12, gridUnit := 12, borderSize := KBorderSize.Tiny }
    m_internalSettings := some sampleInternalSettings
    client := { width := 400, isActive := true, isShaded := false,
                adjacentScreenEdges := ⟨false, false, false, false⟩ }
    hideTitleBar := false
    isMaximized := false
    isMaximizedHorizontally := false
    isMaximizedVertically := false
    captionTextHeight := 15
    captionBoundingRect := QRect.ofXYWH 0 (-12) 30 15
    size := ⟨408, 341⟩
    borders := ⟨0, 0, 0, 0⟩
    resizeOnlyBorders := ⟨0, 0, 0, 0⟩
    titleBar := QRect.null
    m_leftButtons := { geometry := ⟨0, 0, 0, 0⟩, spacing := 0, buttons := [sampleButton, sampleButton] }
    m_rightButtons := { geometry := ⟨0, 0, 0, 0⟩, spacing := 0, buttons := [sampleButton, sampleButton] }
    m_colorSettings := sampleColorSettings
    m_useSeparator := true
    m_animation := { direction := Direction.Forward, state := AnimationState.Stopped }
    m_opacity := 1
    m_sizeGrip := none
    updateRequests := 0
    shadow := none }

/-- The sample window under a palette whose shadow colour is red. -/
def sampleRed : Decoration :=
  { sampleDecoration with
    m_colorSettings :=
      { sampleColorSettings with
        palette := { sampleColorSettings.palette with Shadow := ⟨true, 255, 0, 0, 255⟩ } } }

/-- The process after the construction of two decorations, the sample window and
the one with the red shadow colour; both ask for shadow size 16 and strength 90. -/
def sampleWorld : World :=
  construct (construct World.initial sampleDecoration) sampleRed

/-- The sample window with animations switched off. -/
def sampleNoAnimations : Decoration :=
  { sampleDecoration with
    m_internalSettings := some { sampleInternalSettings with animationsEnabled := false } }

/-- The sample window with animations switched off, just after it lost the
focus: the window is inactive, the opacity is still 1. -/
def sampleDeactivated : Decoration :=
  { sampleNoAnimations with
    client := { width := 400, isActive := false, isShaded := false,
                adjacentScreenEdges := ⟨false, false, false, false⟩ } }

/-- A monotone, positive rational function with value 1 at 0, standing in for
the host's `std::exp`: `1/(1 - x)` left of 0 and `1 + x` from 0 on. -/
def sampleMath : StdMath :=
  { exp := fun x => if 0 ≤ x then 1 + x else 1 / (1 - x) }

/-- The sample window with the title bar suppressed. -/
def sampleHiddenTitleBar : Decoration :=
  { sampleDecoration with hideTitleBar := true }

/-- The sample window under a palette whose window colour is the active title-bar
colour, so that no separator is drawn. -/
def sampleNoSeparator : Decoration :=
  { sampleDecoration with m_useSeparator := false }

/-- The sample window half way through its colour transition. -/
def sampleRunning : Decoration :=
  { sampleDecoration with
    m_animation := { direction := Direction.Forward, state := AnimationState.Running }
    m_opacity := 1 / 2 }

/-- The sample window a third of the way through its colour transition: the
opacity is the `double` nearest 1/3, which is `6004799503160661 / 2 ^ 54`. -/
def sampleThird : Decoration :=
  { sampleDecoration with
    m_animation := { direction := Direction.Forward, state := AnimationState.Running }
    m_opacity := 6004799503160661 / 18014398509481984 }

/-- A channel-wise linear mix, standing in for the host's `KColorUtils::mix`. -/
def sampleColorUtils : KColorUtils :=
  { mix := fun c1 c2 bias =>
      { valid := c1.valid && c2.valid
        red := qrealToInt (c1.red + (c2.red - c1.red) * bias)
        green := qrealToInt (c1.green + (c2.green - c1.green) * bias)
        blue := qrealToInt (c1.blue + (c2.blue - c1.blue) * bias)
        alpha := qrealToInt (c1.alpha + (c2.alpha - c1.alpha) * bias) } }

/-- The sample window maximized horizontally. -/
def sampleMaximizedHorizontally : Decoration :=
  { sampleDecoration with isMaximizedHorizontally := true }

/-- A floating decoration 200 pixels wide with spacing unit 2 and 16 pixel
buttons: three buttons on the left (the group spans 56 pixels from x = 8), one
on the right (at x = 176), and a caption 80 pixels wide. -/
def sampleAsymmetric : Decoration :=
  { sampleDecoration with
    settings := { smallSpacing := 2, largeSpacing := 8, gridUnit := 8, borderSize := KBorderSize.Tiny }
    captionBoundingRect := QRect.ofXYWH 0 (-12) 80 15
    size := ⟨200, 60⟩
    borders := ⟨4, 25, 4, 4⟩
    m_leftButtons :=
      { geometry := ⟨8, 4, 56, 16⟩, spacing := 4, buttons := [sampleButton, sampleButton, sampleButton] }
    m_rightButtons := { geometry := ⟨176, 4, 16, 16⟩, spacing := 4, buttons := [sampleButton] } }

/-- The sample window after layout: margins set, buttons 24 pixels wide, the
button groups 54 pixels wide and placed symmetrically at x = 10 and x = 344. -/
def sampleLaidOut : Decoration :=
  { sampleDecoration with
    borders := ⟨4, 37, 4, 4⟩
    m_leftButtons := { geometry := ⟨10, 6, 54, 24⟩, spacing := 6, buttons := [sampleButton, sampleButton] }
    m_rightButtons := { geometry := ⟨344, 6, 54, 24⟩, spacing := 6, buttons := [sampleButton, sampleButton] } }

/-- The sample window maximized horizontally, after `recalculateBorders`. -/
def sampleMaximizedLaidOut : Decoration :=
  { sampleMaximizedHorizontally with borders := ⟨0, 37, 0, 4⟩ }

/-- The sample window with the small button tier and the odd grid unit 3. -/
def sampleOddGrid : Decoration :=
  { sampleDecoration with
    settings := { smallSpacing := 2, largeSpacing := 3, gridUnit := 3, borderSize := KBorderSize.Tiny }
    m_internalSettings := some { sampleInternalSettings with buttonSize := ButtonSize.ButtonSmall } }

/-! ## Shared lemmas -/

/-- Truncating division by two, in terms of flooring division. -/
theorem tdiv_two (n : Int) :
    (0 ≤ n → Int.tdiv n 2 = n / 2) ∧ (n ≤ 0 → Int.tdiv n 2 = -((-n) / 2)) := by
  constructor
  · intro hn
    exact Int.tdiv_eq_ediv hn (by decide)
  · intro hn
    have e : Int.tdiv (-n) 2 = (-n) / 2 := Int.tdiv_eq_ediv (by omega) (by decide)
    rw [Int.neg_tdiv] at e
    omega

/-- Truncating division by two is within one half of the exact quotient. -/
theorem tdiv_two_bounds (n : Int) :
    n - 1 ≤ 2 * Int.tdiv n 2 ∧ 2 * Int.tdiv n 2 ≤ n + 1
      ∧ (0 ≤ n → 0 ≤ Int.tdiv n 2 ∧ 2 * Int.tdiv n 2 ≤ n)
      ∧ (n ≤ 0 → n ≤ 2 * Int.tdiv n 2) := by
  rcases le_total 0 n with hn | hn
  · have e := (tdiv_two n).1 hn
    omega
  · have e := (tdiv_two n).2 hn
    omega


theorem buttonHeight_isSome (d : Decoration) (i : InternalSettings)
    (h : d.m_internalSettings = some i) : ∃ bh, buttonHeight d = some bh := by
  simp only [buttonHeight, h]
  split <;> exact ⟨_, rfl⟩

/-- With the internal settings in place `recalculateBorders` returns, and this
is the state it returns. -/
theorem recalculateBorders_eq (K : Constants) (d : Decoration) (i : InternalSettings) (bh : Int)
    (h : d.m_internalSettings = some i) (hb : buttonHeight d = some bh) :
    recalculateBorders K d = some
      { d with
        borders :=
          { left := if d.isMaximizedHorizontally
                || (d.client.adjacentScreenEdges.LeftEdge && !i.drawBorderOnMaximizedWindows)
              then 0 else borderSize K d false
            top := if d.hideTitleBar then
                (if d.isMaximizedVertically || d.client.isShaded
                  || (d.client.adjacentScreenEdges.BottomEdge && !i.drawBorderOnMaximizedWindows)
                then 0 else borderSize K d true)
              else max d.captionTextHeight bh + d.settings.smallSpacing * K.TitleBar_BottomMargin
                + 1 + d.settings.smallSpacing * K.TitleBar_TopMargin
            right := if d.isMaximizedHorizontally
                || (d.client.adjacentScreenEdges.RightEdge && !i.drawBorderOnMaximizedWindows)
              then 0 else borderSize K d false
            bottom := if d.isMaximizedVertically || d.client.isShaded
                || (d.client.adjacentScreenEdges.BottomEdge && !i.drawBorderOnMaximizedWindows)
              then 0 else borderSize K d true }
        resizeOnlyBorders :=
          { left := if hasNoBorders K d || hasNoSideBorders K d then d.settings.largeSpacing else 0
            top := 0
            right := if hasNoBorders K d || hasNoSideBorders K d then d.settings.largeSpacing else 0
            bottom := if hasNoBorders K d then d.settings.largeSpacing else 0 } } := by
  have side : ∀ (m e : Bool) (v : Int),
      (if m = true then some (0 : Int)
        else (recalculateBorders.testFlag d e).map fun f => if f = true then 0 else v)
      = some (if (m || (e && !i.drawBorderOnMaximizedWindows)) = true then 0 else v) := by
    intro m e v
    cases m <;> cases e <;> cases hd : i.drawBorderOnMaximizedWindows <;>
      simp [recalculateBorders.testFlag, h, hd]
  have e1 : ∀ m, hasNoBorders K (d.setBorders m) = hasNoBorders K d := fun _ => rfl
  have e2 : ∀ m, hasNoSideBorders K (d.setBorders m) = hasNoSideBorders K d := fun _ => rfl
  simp only [recalculateBorders, side, hb, e1, e2]
  cases hh : d.hideTitleBar <;> cases hn : hasNoBorders K d <;>
    simp [Decoration.setBorders, Decoration.setResizeOnlyBorders, add_assoc, hh]

/-- The code's border size is the specification's ladder at the consulted tier. -/
theorem borderSize_ladder (K : Constants) (d : Decoration) (bottom : Bool) :
    borderSize K d bottom = ladderBorderSize (consultedTier K d) d.settings.smallSpacing bottom := by
  have g : ∀ t : KBorderSize,
      (match t with
        | .None => (0 : Int)
        | .NoSides => if bottom then maxSize d.settings.smallSpacing else 0
        | .Tiny => maxSize d.settings.smallSpacing
        | .Normal => maxSize (d.settings.smallSpacing * 2)
        | .Large => maxSize (d.settings.smallSpacing * 3)
        | .VeryLarge => maxSize (d.settings.smallSpacing * 4)
        | .Huge => maxSize (d.settings.smallSpacing * 5)
        | .VeryHuge => maxSize (d.settings.smallSpacing * 6)
        | .Oversized => maxSize (d.settings.smallSpacing * 10)
        | .other _ => maxSize d.settings.smallSpacing)
      = ladderBorderSize (Tier.ofGlobal t) d.settings.smallSpacing bottom := by
    intro t
    cases t <;> simp [ladderBorderSize, Tier.ofGlobal, maxSize, mul_comm]
  simp only [borderSize, consultedTier, g]
  cases d.m_internalSettings with
  | none => rfl
  | some i =>
    by_cases hm : Int.land i.mask K.BorderSize ≠ 0
    · simp only [if_pos hm]
      cases i.borderSize <;> simp [ladderBorderSize, Tier.ofInternal, maxSize, mul_comm]
    · simp only [if_neg hm]

/-- The border size is never negative. -/
theorem borderSize_nonneg (K : Constants) (d : Decoration) (bottom : Bool) :
    0 ≤ borderSize K d bottom := by
  rw [borderSize_ladder]
  cases consultedTier K d <;> cases bottom <;> simp [ladderBorderSize]

/-- The border size is the floor of 4 pixels or a multiple of the spacing unit. -/
theorem borderSize_four_or_multiple (K : Constants) (d : Decoration) (bottom : Bool) :
    borderSize K d bottom = 4 ∨ d.settings.smallSpacing ∣ borderSize K d bottom := by
  rw [borderSize_ladder]
  have key : ∀ k : Int, max (k * d.settings.smallSpacing) 4 = 4
      ∨ d.settings.smallSpacing ∣ max (k * d.settings.smallSpacing) 4 := by
    intro k
    rcases le_total (k * d.settings.smallSpacing) 4 with hle | hle
    · left; exact max_eq_right hle
    · right; rw [max_eq_left hle]; exact Dvd.intro_left k rfl
  cases consultedTier K d <;> cases bottom <;>
    first
      | exact Or.inr (dvd_zero _)
      | exact key _
      | simpa [ladderBorderSize] using key 1

theorem hasNoBorders_iff (K : Constants) (d : Decoration) :
    hasNoBorders K d = true ↔ consultedTier K d = Tier.None := by
  unfold hasNoBorders consultedTier
  cases d.m_internalSettings with
  | none => cases d.settings.borderSize <;> simp [Tier.ofGlobal]
  | some i =>
    by_cases hm : Int.land i.mask K.BorderSize ≠ 0
    · simp only [if_pos hm]
      cases i.borderSize <;> simp [Tier.ofInternal]
    · simp only [if_neg hm]
      cases d.settings.borderSize <;> simp [Tier.ofGlobal]

theorem hasNoSideBorders_iff (K : Constants) (d : Decoration) :
    hasNoSideBorders K d = true ↔ consultedTier K d = Tier.NoSides := by
  unfold hasNoSideBorders consultedTier
  cases d.m_internalSettings with
  | none => cases d.settings.borderSize <;> simp [Tier.ofGlobal]
  | some i =>
    by_cases hm : Int.land i.mask K.BorderSize ≠ 0
    · simp only [if_pos hm]
      cases i.borderSize <;> simp [Tier.ofInternal]
    · simp only [if_neg hm]
      cases d.settings.borderSize <;> simp [Tier.ofGlobal]

/-! ## Frame margins -/

/-- C1. With the title bar shown, `recalculateBorders` sets the top margin to
`max(textHeight, buttonHeight()) + smallSpacing*TitleBar_BottomMargin + 1 +
smallSpacing*TitleBar_TopMargin`; with the title bar suppressed it sets the top
margin to the bottom margin of the same call. -/
theorem recalculateBorders_top (K : Constants) (d : Decoration) (i : InternalSettings)
    (h : d.m_internalSettings = some i) :
    ∃ d1 bh, recalculateBorders K d = some d1 ∧ buttonHeight d = some bh ∧
      d1.borders.top =
        if d.hideTitleBar then d1.borders.bottom
        else max d.captionTextHeight bh + d.settings.smallSpacing * K.TitleBar_BottomMargin + 1
          + d.settings.smallSpacing * K.TitleBar_TopMargin := by
  obtain ⟨bh, hb⟩ := buttonHeight_isSome d i h
  refine ⟨_, bh, recalculateBorders_eq K d i bh h hb, hb, ?_⟩
  cases d.hideTitleBar <;> simp

/-- C1 at the sample window. -/
theorem recalculateBorders_top_witness :
    sampleDecoration.m_internalSettings = some sampleInternalSettings ∧
    ∃ d1 bh, recalculateBorders sampleConstants sampleDecoration = some d1 ∧
      buttonHeight sampleDecoration = some bh ∧
      d1.borders.top =
        if sampleDecoration.hideTitleBar then d1.borders.bottom
        else max sampleDecoration.captionTextHeight bh
          + sampleDecoration.settings.smallSpacing * sampleConstants.TitleBar_BottomMargin + 1
          + sampleDecoration.settings.smallSpacing * sampleConstants.TitleBar_TopMargin :=
  ⟨rfl, recalculateBorders_top sampleConstants sampleDecoration sampleInternalSettings rfl⟩

/-- C2. For every spacing unit and tier, `borderSize(bottom)` is the ladder value
`max(k*b, 4)` with `k = 1, 2, 3, 4, 5, 6, 10` for Tiny .. Oversized, `0` for None, for
NoSides `0` on the sides and `max(b, 4)` at the bottom, and the Tiny value for a
tier outside the ladder; the tier consulted is the per-instance one when the
internal settings exist and their mask has the `BorderSize` bit, the global one
otherwise. -/
theorem borderSize_spec (K : Constants) (d : Decoration) (bottom : Bool) :
    borderSize K d bottom
      = ladderBorderSize (consultedTier K d) d.settings.smallSpacing bottom :=
  borderSize_ladder K d bottom

/-- C3. `recalculateBorders` sets left and right to 0 when the decoration is
maximized horizontally or the edge touches a screen edge with "draw border on
maximized windows" off, sets bottom to 0 when maximized vertically, shaded, or
the bottom edge touches a screen edge with that option off, and otherwise sets
the side to `borderSize()` (`borderSize(true)` for the bottom). -/
theorem recalculateBorders_sides (K : Constants) (d : Decoration) (i : InternalSettings)
    (h : d.m_internalSettings = some i) :
    ∃ d1, recalculateBorders K d = some d1 ∧
      d1.borders.left =
        (if d.isMaximizedHorizontally
            || (d.client.adjacentScreenEdges.LeftEdge && !i.drawBorderOnMaximizedWindows)
          then 0 else borderSize K d false) ∧
      d1.borders.right =
        (if d.isMaximizedHorizontally
            || (d.client.adjacentScreenEdges.RightEdge && !i.drawBorderOnMaximizedWindows)
          then 0 else borderSize K d false) ∧
      d1.borders.bottom =
        (if d.isMaximizedVertically || d.client.isShaded
            || (d.client.adjacentScreenEdges.BottomEdge && !i.drawBorderOnMaximizedWindows)
          then 0 else borderSize K d true) := by
  obtain ⟨bh, hb⟩ := buttonHeight_isSome d i h
  exact ⟨_, recalculateBorders_eq K d i bh h hb, rfl, rfl, rfl⟩

/-- C3 at the sample window: all three margins are the Tiny border, 4 pixels. -/
theorem recalculateBorders_sides_witness :
    sampleDecoration.m_internalSettings = some sampleInternalSettings ∧
    ∃ d1, recalculateBorders sampleConstants sampleDecoration = some d1 ∧
      d1.borders.left = 4 ∧ d1.borders.right = 4 ∧ d1.borders.bottom = 4 :=
  ⟨rfl, recalculateBorders_sides sampleConstants sampleDecoration sampleInternalSettings rfl⟩

/-- C4, as stated, fails: with spacing unit 3 and the Tiny tier the floor of 4
pixels gives side margins of 4, and the top margin is 37; neither is a multiple
of 3. -/
theorem recalculateBorders_multiple_counterexample :
    sampleDecoration.settings.smallSpacing = 3 ∧
    (recalculateBorders sampleConstants sampleDecoration).map (fun d1 => d1.borders)
      = some ⟨4, 37, 4, 4⟩ ∧
    ¬ ((3 : Int) ∣ 4) ∧ ¬ ((3 : Int) ∣ 37) := by
  refine ⟨rfl, rfl, ?_, ?_⟩ <;> decide

/-- C4, amended. For a non-negative spacing unit, text height and padding
constants, the four margins `recalculateBorders` sets are non-negative, and
each of left, right and bottom is either the 4 pixel floor or a multiple of the
spacing unit. -/
theorem recalculateBorders_nonneg (K : Constants) (d : Decoration) (i : InternalSettings)
    (h : d.m_internalSettings = some i) (hs : 0 ≤ d.settings.smallSpacing)
    (ht : 0 ≤ d.captionTextHeight) (hT : 0 ≤ K.TitleBar_TopMargin)
    (hB : 0 ≤ K.TitleBar_BottomMargin) :
    ∃ d1, recalculateBorders K d = some d1 ∧
      0 ≤ d1.borders.left ∧ 0 ≤ d1.borders.top ∧ 0 ≤ d1.borders.right ∧ 0 ≤ d1.borders.bottom ∧
      (d1.borders.left = 4 ∨ d.settings.smallSpacing ∣ d1.borders.left) ∧
      (d1.borders.right = 4 ∨ d.settings.smallSpacing ∣ d1.borders.right) ∧
      (d1.borders.bottom = 4 ∨ d.settings.smallSpacing ∣ d1.borders.bottom) := by
  obtain ⟨bh, hb⟩ := buttonHeight_isSome d i h
  have nn : ∀ (c bottom : Bool), 0 ≤ (if c = true then 0 else borderSize K d bottom) := by
    intro c bottom
    cases c
    · simpa using borderSize_nonneg K d bottom
    · simp
  have fm : ∀ (c bottom : Bool), (if c = true then 0 else borderSize K d bottom) = 4
      ∨ d.settings.smallSpacing ∣ (if c = true then 0 else borderSize K d bottom) := by
    intro c bottom
    cases c
    · simpa using borderSize_four_or_multiple K d bottom
    · right; simp
  refine ⟨_, recalculateBorders_eq K d i bh h hb, nn _ _, ?_, nn _ _, nn _ _, fm _ _, fm _ _,
    fm _ _⟩
  show 0 ≤ (if d.hideTitleBar = true then _ else _)
  split
  · exact nn _ _
  · have h1 : 0 ≤ d.settings.smallSpacing * K.TitleBar_BottomMargin := mul_nonneg hs hB
    have h2 : 0 ≤ d.settings.smallSpacing * K.TitleBar_TopMargin := mul_nonneg hs hT
    have h3 : d.captionTextHeight ≤ max d.captionTextHeight bh := le_max_left _ _
    omega

/-- C4, amended, at the sample window. -/
theorem recalculateBorders_nonneg_witness :
    (sampleDecoration.m_internalSettings = some sampleInternalSettings ∧
      0 ≤ sampleDecoration.settings.smallSpacing ∧ 0 ≤ sampleDecoration.captionTextHeight ∧
      0 ≤ sampleConstants.TitleBar_TopMargin ∧ 0 ≤ sampleConstants.TitleBar_BottomMargin) ∧
    ∃ d1, recalculateBorders sampleConstants sampleDecoration = some d1 ∧
      0 ≤ d1.borders.left ∧ 0 ≤ d1.borders.top ∧ 0 ≤ d1.borders.right ∧ 0 ≤ d1.borders.bottom ∧
      (d1.borders.left = 4 ∨ sampleDecoration.settings.smallSpacing ∣ d1.borders.left) ∧
      (d1.borders.right = 4 ∨ sampleDecoration.settings.smallSpacing ∣ d1.borders.right) ∧
      (d1.borders.bottom = 4 ∨ sampleDecoration.settings.smallSpacing ∣ d1.borders.bottom) :=
  ⟨⟨rfl, by decide, by decide, by decide, by decide⟩,
    recalculateBorders_nonneg sampleConstants sampleDecoration sampleInternalSettings rfl
      (by decide) (by decide) (by decide) (by decide)⟩

/-- C5, as stated, fails: a Tiny-tier window maximized horizontally gets left and
right frame margins 0, yet its resize-only margins are 0, not `largeSpacing = 12`. -/
theorem recalculateBorders_resizeOnly_counterexample :
    sampleMaximizedHorizontally.settings.largeSpacing = 12 ∧
    (recalculateBorders sampleConstants sampleMaximizedHorizontally).map
      (fun d1 => (d1.borders, d1.resizeOnlyBorders))
      = some (⟨0, 37, 0, 4⟩, ⟨0, 0, 0, 0⟩) :=
  ⟨rfl, rfl⟩

/-- C5, amended. The resize-only margins follow the border tier, not the frame
margin: left and right are `largeSpacing` exactly when the tier consulted is None
or NoSides, bottom is `largeSpacing` exactly when it is None, all are 0 otherwise,
and top is always 0. Consequently a side whose frame margin is positive has
resize-only margin 0. -/
theorem recalculateBorders_resizeOnly (K : Constants) (d : Decoration) (i : InternalSettings)
    (h : d.m_internalSettings = some i) :
    ∃ d1, recalculateBorders K d = some d1 ∧
      d1.resizeOnlyBorders.top = 0 ∧
      d1.resizeOnlyBorders.left =
        (if consultedTier K d = Tier.None ∨ consultedTier K d = Tier.NoSides
          then d.settings.largeSpacing else 0) ∧
      d1.resizeOnlyBorders.right =
        (if consultedTier K d = Tier.None ∨ consultedTier K d = Tier.NoSides
          then d.settings.largeSpacing else 0) ∧
      d1.resizeOnlyBorders.bottom =
        (if consultedTier K d = Tier.None then d.settings.largeSpacing else 0) ∧
      (0 < d1.borders.left → d1.resizeOnlyBorders.left = 0) ∧
      (0 < d1.borders.right → d1.resizeOnlyBorders.right = 0) ∧
      (0 < d1.borders.bottom → d1.resizeOnlyBorders.bottom = 0) := by
  obtain ⟨bh, hb⟩ := buttonHeight_isSome d i h
  have hsides : (if (hasNoBorders K d || hasNoSideBorders K d) = true
        then d.settings.largeSpacing else 0)
      = (if consultedTier K d = Tier.None ∨ consultedTier K d = Tier.NoSides
          then d.settings.largeSpacing else 0) := by
    have := hasNoBorders_iff K d
    have := hasNoSideBorders_iff K d
    simp only [Bool.or_eq_true, *]
  have hbot : (if hasNoBorders K d = true then d.settings.largeSpacing else 0)
      = (if consultedTier K d = Tier.None then d.settings.largeSpacing else 0) := by
    simp only [hasNoBorders_iff K d]
  have pos : ∀ (c bottom : Bool), 0 < (if c = true then 0 else borderSize K d bottom) →
      0 < ladderBorderSize (consultedTier K d) d.settings.smallSpacing bottom := by
    intro c bottom
    cases c <;> simp [borderSize_ladder]
  refine ⟨_, recalculateBorders_eq K d i bh h hb, rfl, hsides, hsides, hbot, ?_, ?_, ?_⟩
  · intro hp
    have hp2 := pos _ _ hp
    show (if _ then _ else _) = (0 : Int)
    rw [hsides]
    cases ht : consultedTier K d <;> simp [ht, ladderBorderSize] at hp2 ⊢
  · intro hp
    have hp2 := pos _ _ hp
    show (if _ then _ else _) = (0 : Int)
    rw [hsides]
    cases ht : consultedTier K d <;> simp [ht, ladderBorderSize] at hp2 ⊢
  · intro hp
    have hp2 := pos _ _ hp
    show (if _ then _ else _) = (0 : Int)
    rw [hbot]
    cases ht : consultedTier K d <;> simp [ht, ladderBorderSize] at hp2 ⊢

/-- C5, amended, at the sample window. -/
theorem recalculateBorders_resizeOnly_witness :
    sampleDecoration.m_internalSettings = some sampleInternalSettings ∧
    ∃ d1, recalculateBorders sampleConstants sampleDecoration = some d1 ∧
      d1.resizeOnlyBorders.top = 0 ∧
      d1.resizeOnlyBorders.left =
        (if consultedTier sampleConstants sampleDecoration = Tier.None
            ∨ consultedTier sampleConstants sampleDecoration = Tier.NoSides
          then sampleDecoration.settings.largeSpacing else 0) ∧
      d1.resizeOnlyBorders.right =
        (if consultedTier sampleConstants sampleDecoration = Tier.None
            ∨ consultedTier sampleConstants sampleDecoration = Tier.NoSides
          then sampleDecoration.settings.largeSpacing else 0) ∧
      d1.resizeOnlyBorders.bottom =
        (if consultedTier sampleConstants sampleDecoration = Tier.None
          then sampleDecoration.settings.largeSpacing else 0) ∧
      (0 < d1.borders.left → d1.resizeOnlyBorders.left = 0) ∧
      (0 < d1.borders.right → d1.resizeOnlyBorders.right = 0) ∧
      (0 < d1.borders.bottom → d1.resizeOnlyBorders.bottom = 0) :=
  ⟨rfl, recalculateBorders_resizeOnly sampleConstants sampleDecoration sampleInternalSettings rfl⟩

/-! ## Caption rectangle -/

/-- C6. Under the full-width-centered policy (or an unrecognised alignment) with
the title bar shown, let `w` be the width of the caption's bounding box and
`left = (W - w)/2`, `right = left + w - 1` its columns once centered across the
decoration width `W`. `captionRect` returns `(maxRect, left-aligned)` if
`left < leftOffset`, otherwise `(maxRect, right-aligned)` if
`right > W - rightOffset`, otherwise `(fullRect, centered)`, with
`maxRect = (leftOffset, yOffset, W - leftOffset - rightOffset, captionHeight)` and
`fullRect = (0, yOffset, W, captionHeight)`. -/
theorem captionRect_fullWidth (K : Constants) (d : Decoration) (i : InternalSettings)
    (h : d.m_internalSettings = some i) (hh : d.hideTitleBar = false)
    (ha : i.titleAlignment = TitleAlignment.AlignCenterFullWidth
      ∨ ∃ raw, i.titleAlignment = TitleAlignment.other raw) :
    captionRect K d = some
      (if Int.tdiv (d.size.width - d.captionBoundingRect.width) 2
          < d.m_leftButtons.geometry.x + d.m_leftButtons.geometry.width
            + K.TitleBar_SideMargin * d.settings.smallSpacing then
        (QRect.ofXYWH (captionRect.leftOffset K d) (d.settings.smallSpacing * K.TitleBar_TopMargin)
          (d.size.width - captionRect.leftOffset K d - captionRect.rightOffset K d)
          (captionHeight K d), Alignment.AlignVCenter_AlignLeft)
      else if Int.tdiv (d.size.width - d.captionBoundingRect.width) 2
          + d.captionBoundingRect.width - 1
          > d.size.width - (d.size.width - d.m_rightButtons.geometry.x
            + K.TitleBar_SideMargin * d.settings.smallSpacing) then
        (QRect.ofXYWH (captionRect.leftOffset K d) (d.settings.smallSpacing * K.TitleBar_TopMargin)
          (d.size.width - captionRect.leftOffset K d - captionRect.rightOffset K d)
          (captionHeight K d), Alignment.AlignVCenter_AlignRight)
      else
        (QRect.ofXYWH 0 (d.settings.smallSpacing * K.TitleBar_TopMargin) d.size.width
          (captionHeight K d), Alignment.AlignCenter)) := by
  have hl : (captionRect.boundingRect K d).left
      = Int.tdiv (d.size.width - d.captionBoundingRect.width) 2 := by
    simp [captionRect.boundingRect, QRect.left, QRect.moveLeft, QRect.setHeight, QRect.setTop,
      QRect.width]
  have hr : (captionRect.boundingRect K d).right
      = Int.tdiv (d.size.width - d.captionBoundingRect.width) 2
        + d.captionBoundingRect.width - 1 := by
    simp only [captionRect.boundingRect, QRect.right, QRect.moveLeft, QRect.setHeight,
      QRect.setTop, QRect.width]
    omega
  have hfull : captionRect K d = some
      (if (captionRect.boundingRect K d).left < captionRect.leftOffset K d then
        (captionRect.maxRect K d, Alignment.AlignVCenter_AlignLeft)
      else if (captionRect.boundingRect K d).right > d.size.width - captionRect.rightOffset K d then
        (captionRect.maxRect K d, Alignment.AlignVCenter_AlignRight)
      else (captionRect.fullRect K d, Alignment.AlignCenter)) := by
    rcases ha with ha | ⟨raw, ha⟩ <;> simp [captionRect, h, hh, ha]
  rw [hfull, hl, hr]
  rfl

/-- C6 at the asymmetric sample: the left-aligned fallback. -/
theorem captionRect_fullWidth_witness :
    (sampleAsymmetric.m_internalSettings = some sampleInternalSettings ∧
      sampleAsymmetric.hideTitleBar = false ∧
      sampleInternalSettings.titleAlignment = TitleAlignment.AlignCenterFullWidth) ∧
    captionRect sampleConstants sampleAsymmetric
      = some (QRect.ofXYWH 68 4 104 16, Alignment.AlignVCenter_AlignLeft) :=
  ⟨⟨rfl, rfl, rfl⟩,
    captionRect_fullWidth sampleConstants sampleAsymmetric sampleInternalSettings rfl rfl
      (Or.inl rfl)⟩

/-- C7, as stated, fails: the caption is 80 pixels wide and 104 pixels are free
between the button groups, but the groups are not symmetric (68 pixels are
reserved on the left, 28 on the right), the centered box starts at column 60,
and `captionRect` falls back to the left-aligned `maxRect`. -/
theorem captionRect_centered_counterexample :
    sampleAsymmetric.captionBoundingRect.width = 80 ∧
    sampleAsymmetric.size.width - captionRect.leftOffset sampleConstants sampleAsymmetric
      - captionRect.rightOffset sampleConstants sampleAsymmetric = 104 ∧
    captionRect sampleConstants sampleAsymmetric
      = some (QRect.ofXYWH 68 4 104 16, Alignment.AlignVCenter_AlignLeft) ∧
    captionRect sampleConstants sampleAsymmetric
      ≠ some (QRect.ofXYWH 0 4 200 16, Alignment.AlignCenter) := by
  refine ⟨rfl, rfl, rfl, ?_⟩
  decide

/-- C7, amended. Under the full-width-centered policy with the title bar shown,
for every caption whose measured width `w` leaves room for the reserved width of
either side on both sides, `w ≤ W - 2*leftOffset` and `w ≤ W - 2*rightOffset`,
`captionRect` returns the full-width rect `(0, yOffset, W, captionHeight)` with
centered alignment. -/
theorem captionRect_centered (K : Constants) (d : Decoration) (i : InternalSettings)
    (h : d.m_internalSettings = some i) (hh : d.hideTitleBar = false)
    (ha : i.titleAlignment = TitleAlignment.AlignCenterFullWidth
      ∨ ∃ raw, i.titleAlignment = TitleAlignment.other raw)
    (hl : d.captionBoundingRect.width ≤ d.size.width - 2 * captionRect.leftOffset K d)
    (hr : d.captionBoundingRect.width ≤ d.size.width - 2 * captionRect.rightOffset K d) :
    captionRect K d = some
      (QRect.ofXYWH 0 (d.settings.smallSpacing * K.TitleBar_TopMargin) d.size.width
        (captionHeight K d), Alignment.AlignCenter) := by
  have hb := tdiv_two_bounds (d.size.width - d.captionBoundingRect.width)
  have hL : ¬ ((captionRect.boundingRect K d).left < captionRect.leftOffset K d) := by
    have e : (captionRect.boundingRect K d).left
        = Int.tdiv (d.size.width - d.captionBoundingRect.width) 2 := by
      simp [captionRect.boundingRect, QRect.left, QRect.moveLeft, QRect.setHeight, QRect.setTop,
        QRect.width]
    rw [e]
    rcases le_total 0 (d.size.width - d.captionBoundingRect.width) with hn | hn
    · have := (tdiv_two _).1 hn
      omega
    · omega
  have hR : ¬ ((captionRect.boundingRect K d).right
      > d.size.width - captionRect.rightOffset K d) := by
    have e : (captionRect.boundingRect K d).right
        = Int.tdiv (d.size.width - d.captionBoundingRect.width) 2
          + d.captionBoundingRect.width - 1 := by
      simp only [captionRect.boundingRect, QRect.right, QRect.moveLeft, QRect.setHeight,
        QRect.setTop, QRect.width]
      omega
    rw [e]
    omega
  rcases ha with ha | ⟨raw, ha⟩ <;>
    simp [captionRect, h, hh, ha, hL, hR, captionRect.fullRect, captionRect.yOffset]

/-- C7, amended, at the laid-out sample window: the full-width centered rect. -/
theorem captionRect_centered_witness :
    (sampleLaidOut.m_internalSettings = some sampleInternalSettings ∧
      sampleLaidOut.hideTitleBar = false ∧
      sampleInternalSettings.titleAlignment = TitleAlignment.AlignCenterFullWidth ∧
      sampleLaidOut.captionBoundingRect.width
        ≤ sampleLaidOut.size.width - 2 * captionRect.leftOffset sampleConstants sampleLaidOut ∧
      sampleLaidOut.captionBoundingRect.width
        ≤ sampleLaidOut.size.width - 2 * captionRect.rightOffset sampleConstants sampleLaidOut) ∧
    captionRect sampleConstants sampleLaidOut = some (QRect.ofXYWH 0 6 408 24, Alignment.AlignCenter) :=
  ⟨⟨rfl, rfl, rfl, by decide, by decide⟩,
    captionRect_centered sampleConstants sampleLaidOut sampleInternalSettings rfl rfl (Or.inl rfl)
      (by decide) (by decide)⟩

/-! ## Buttons -/

theorem head_modifyFront (f : Button → Button) (l : List Button) :
    (modifyFront f l).head? = l.head?.map f := by
  cases l <;> rfl

theorem tail_modifyFront (f : Button → Button) (l : List Button) :
    (modifyFront f l).tail = l.tail := by
  cases l <;> rfl

theorem getLast_modifyBack (f : Button → Button) (l : List Button) :
    (modifyBack f l).getLast? = l.getLast?.map f := by
  induction l with
  | nil => rfl
  | cons a t ih =>
    cases t with
    | nil => rfl
    | cons c t =>
      cases hm : modifyBack f (c :: t) with
      | nil => cases t <;> simp [modifyBack] at hm
      | cons x xs =>
        rw [hm] at ih
        simp only [modifyBack, hm, List.getLast?_cons_cons, ih]

theorem dropLast_modifyBack (f : Button → Button) (l : List Button) :
    (modifyBack f l).dropLast = l.dropLast := by
  induction l with
  | nil => rfl
  | cons a t ih =>
    cases t with
    | nil => rfl
    | cons c t =>
      cases hm : modifyBack f (c :: t) with
      | nil => cases t <;> simp [modifyBack] at hm
      | cons x xs =>
        rw [hm] at ih
        simp only [modifyBack, hm, List.dropLast_cons₂, ih]

theorem mem_modifyFront (f : Button → Button) (l : List Button) (b : Button)
    (hb : b ∈ modifyFront f l) : b ∈ l ∨ ∃ a ∈ l, b = f a := by
  cases l with
  | nil => simp [modifyFront] at hb
  | cons a t =>
    simp only [modifyFront, List.mem_cons] at hb
    rcases hb with hb | hb
    · exact Or.inr ⟨a, List.mem_cons_self _ _, hb⟩
    · exact Or.inl (List.mem_cons_of_mem _ hb)

theorem mem_modifyBack (f : Button → Button) (l : List Button) (b : Button)
    (hb : b ∈ modifyBack f l) : b ∈ l ∨ ∃ a ∈ l, b = f a := by
  induction l with
  | nil => simp [modifyBack] at hb
  | cons a t ih =>
    cases t with
    | nil =>
      simp only [modifyBack, List.mem_singleton] at hb
      exact Or.inr ⟨a, List.mem_cons_self _ _, hb⟩
    | cons c t =>
      simp only [modifyBack, List.mem_cons] at hb
      rcases hb with hb | hb
      · exact Or.inl (by simp [hb])
      · rcases ih (by simpa [List.mem_cons] using hb) with h1 | ⟨x, hx, hfx⟩
        · exact Or.inl (List.mem_cons_of_mem _ h1)
        · exact Or.inr ⟨x, List.mem_cons_of_mem _ hx, hfx⟩

theorem updateButtonsGeometry_eq (K : Constants) (d : Decoration) (bh : Int)
    (hb : buttonHeight d = some bh) :
    updateButtonsGeometry K d = some
      { d with
        m_leftButtons := updateButtonsGeometry.left K d bh
          { d.m_leftButtons with
            buttons := d.m_leftButtons.buttons.map (updateButtonsGeometry.each K d bh) }
        m_rightButtons := updateButtonsGeometry.right K d bh
          { d.m_rightButtons with
            buttons := d.m_rightButtons.buttons.map (updateButtonsGeometry.each K d bh) } } := by
  simp only [updateButtonsGeometry, hb, Option.map_some']

theorem left_buttons (K : Constants) (d : Decoration) (bh : Int) (g : DecorationButtonGroup) :
    (updateButtonsGeometry.left K d bh g).buttons
      = if d.isMaximizedHorizontally then modifyFront (updateButtonsGeometry.front K d bh) g.buttons
        else g.buttons := by
  unfold updateButtonsGeometry.left
  cases hg : g.buttons with
  | nil => cases d.isMaximizedHorizontally <;> simp [modifyFront, hg]
  | cons a t =>
    cases d.isMaximizedHorizontally <;>
      simp [DecorationButtonGroup.setPos, DecorationButtonGroup.setSpacing, hg]

theorem right_buttons (K : Constants) (d : Decoration) (bh : Int) (g : DecorationButtonGroup) :
    (updateButtonsGeometry.right K d bh g).buttons
      = if d.isMaximizedHorizontally then modifyBack (updateButtonsGeometry.back K d bh) g.buttons
        else g.buttons := by
  unfold updateButtonsGeometry.right
  cases hg : g.buttons with
  | nil => cases d.isMaximizedHorizontally <;> simp [modifyBack, hg]
  | cons a t =>
    cases d.isMaximizedHorizontally <;>
      simp [DecorationButtonGroup.setPos, DecorationButtonGroup.setSpacing, hg]

/-- C8, as stated, fails for the right group: on the sample window maximized
horizontally (button height 24, side padding 6) the last button of the right
group is widened to 30 but keeps horizontal offset 0; only the first button of
the left group gets the offset 6. -/
theorem updateButtonsGeometry_offset_counterexample :
    sampleMaximizedLaidOut.settings.smallSpacing * sampleConstants.TitleBar_SideMargin = 6 ∧
    (updateButtonsGeometry sampleConstants sampleMaximizedLaidOut).map
      (fun d2 => (d2.m_leftButtons.buttons.map (fun b => (b.geometry.width, b.m_offset.x)),
        d2.m_rightButtons.buttons.map (fun b => (b.geometry.width, b.m_offset.x))))
      = some ([(30, 6), (24, 0)], [(24, 0), (30, 0)]) :=
  ⟨rfl, rfl⟩

/-- C8, amended. For a window maximized horizontally with at least two buttons in
each group, after `updateButtonsGeometry` the first button of the left group has
width `buttonHeight() + hPadding` and horizontal offset `hPadding`, the last
button of the right group has width `buttonHeight() + hPadding` and horizontal
offset 0, and every inner button has width `buttonHeight()` and horizontal
offset 0, where `hPadding = smallSpacing*TitleBar_SideMargin`. -/
theorem updateButtonsGeometry_outermost (K : Constants) (d : Decoration) (i : InternalSettings)
    (h : d.m_internalSettings = some i) (hmax : d.isMaximizedHorizontally = true)
    (hl : 2 ≤ d.m_leftButtons.buttons.length) (hr : 2 ≤ d.m_rightButtons.buttons.length) :
    ∃ d2 bh, updateButtonsGeometry K d = some d2 ∧ buttonHeight d = some bh ∧
      d2.m_leftButtons.buttons.length = d.m_leftButtons.buttons.length ∧
      d2.m_rightButtons.buttons.length = d.m_rightButtons.buttons.length ∧
      (∃ b, d2.m_leftButtons.buttons.head? = some b ∧
        b.geometry.width = bh + d.settings.smallSpacing * K.TitleBar_SideMargin ∧
        b.m_offset.x = d.settings.smallSpacing * K.TitleBar_SideMargin) ∧
      (∀ b ∈ d2.m_leftButtons.buttons.tail, b.geometry.width = bh ∧ b.m_offset.x = 0) ∧
      (∃ b, d2.m_rightButtons.buttons.getLast? = some b ∧
        b.geometry.width = bh + d.settings.smallSpacing * K.TitleBar_SideMargin ∧
        b.m_offset.x = 0) ∧
      (∀ b ∈ d2.m_rightButtons.buttons.dropLast, b.geometry.width = bh ∧ b.m_offset.x = 0) := by
  obtain ⟨bh, hb⟩ := buttonHeight_isSome d i h
  refine ⟨_, bh, updateButtonsGeometry_eq K d bh hb, hb, ?_, ?_, ?_, ?_, ?_, ?_⟩
  · simp only [left_buttons, hmax, if_true]
    cases d.m_leftButtons.buttons <;> simp [modifyFront]
  · simp only [right_buttons, hmax, if_true]
    have hlen : ∀ (f : Button → Button) (l : List Button),
        (modifyBack f l).length = l.length := by
      intro f l
      induction l with
      | nil => rfl
      | cons a t ih =>
        cases t with
        | nil => rfl
        | cons c t => simp only [modifyBack, List.length_cons, ih]
    rw [hlen, List.length_map]
  · simp only [left_buttons, hmax, if_true, head_modifyFront]
    cases hls : d.m_leftButtons.buttons with
    | nil => simp [hls] at hl
    | cons a t =>
      exact ⟨_, rfl, rfl, rfl⟩
  · intro b hbm
    simp only [left_buttons, hmax, if_true, tail_modifyFront] at hbm
    have hmem : b ∈ d.m_leftButtons.buttons.map (updateButtonsGeometry.each K d bh) :=
      List.mem_of_mem_tail hbm
    obtain ⟨a, _, rfl⟩ := List.mem_map.1 hmem
    exact ⟨rfl, rfl⟩
  · simp only [right_buttons, hmax, if_true, getLast_modifyBack, List.getLast?_map]
    cases hls : d.m_rightButtons.buttons.getLast? with
    | none =>
      rw [List.getLast?_eq_none_iff] at hls
      simp [hls] at hr
    | some a => exact ⟨_, rfl, rfl, rfl⟩
  · intro b hbm
    simp only [right_buttons, hmax, if_true, dropLast_modifyBack] at hbm
    have hmem : b ∈ d.m_rightButtons.buttons.map (updateButtonsGeometry.each K d bh) :=
      List.mem_of_mem_dropLast hbm
    obtain ⟨a, _, rfl⟩ := List.mem_map.1 hmem
    exact ⟨rfl, rfl⟩

/-- C8, amended, at the sample window maximized horizontally. -/
theorem updateButtonsGeometry_outermost_witness :
    (sampleMaximizedLaidOut.m_internalSettings = some sampleInternalSettings ∧
      sampleMaximizedLaidOut.isMaximizedHorizontally = true ∧
      2 ≤ sampleMaximizedLaidOut.m_leftButtons.buttons.length ∧
      2 ≤ sampleMaximizedLaidOut.m_rightButtons.buttons.length) ∧
    ∃ d2 bh, updateButtonsGeometry sampleConstants sampleMaximizedLaidOut = some d2 ∧
      buttonHeight sampleMaximizedLaidOut = some bh ∧
      d2.m_leftButtons.buttons.length = sampleMaximizedLaidOut.m_leftButtons.buttons.length ∧
      d2.m_rightButtons.buttons.length = sampleMaximizedLaidOut.m_rightButtons.buttons.length ∧
      (∃ b, d2.m_leftButtons.buttons.head? = some b ∧
        b.geometry.width
          = bh + sampleMaximizedLaidOut.settings.smallSpacing * sampleConstants.TitleBar_SideMargin ∧
        b.m_offset.x
          = sampleMaximizedLaidOut.settings.smallSpacing * sampleConstants.TitleBar_SideMargin) ∧
      (∀ b ∈ d2.m_leftButtons.buttons.tail, b.geometry.width = bh ∧ b.m_offset.x = 0) ∧
      (∃ b, d2.m_rightButtons.buttons.getLast? = some b ∧
        b.geometry.width
          = bh + sampleMaximizedLaidOut.settings.smallSpacing * sampleConstants.TitleBar_SideMargin ∧
        b.m_offset.x = 0) ∧
      (∀ b ∈ d2.m_rightButtons.buttons.dropLast, b.geometry.width = bh ∧ b.m_offset.x = 0) :=
  ⟨⟨rfl, rfl, by decide, by decide⟩,
    updateButtonsGeometry_outermost sampleConstants sampleMaximizedLaidOut sampleInternalSettings
      rfl rfl (by decide) (by decide)⟩

/-- C9, as stated, fails: with grid unit 3 the small tier gives `int(3*1.5) = 4`,
not 4.5. -/
theorem buttonHeight_exact_counterexample :
    sampleOddGrid.settings.gridUnit = 3 ∧ buttonHeight sampleOddGrid = some 4 ∧
    ((4 : Int) : ℚ) ≠ 1.5 * ((3 : Int) : ℚ) := by
  refine ⟨rfl, rfl, ?_⟩
  norm_num

/-- C9, amended. For every grid unit `g`, `buttonHeight()` is `1.5*g`, `2.5*g`, `3.5*g`
rounded toward zero to an integer for the small, large and very-large tiers,
hence exactly that product whenever `g` is even, and exactly `2*g` for the default
tier and for any unrecognised button-size value. -/
theorem buttonHeight_tiers (d : Decoration) (i : InternalSettings)
    (h : d.m_internalSettings = some i) :
    ∃ bh, buttonHeight d = some bh ∧
      (i.buttonSize = ButtonSize.ButtonSmall →
        IsHalfTowardZero (3 * d.settings.gridUnit) bh
          ∧ (2 ∣ d.settings.gridUnit → 2 * bh = 3 * d.settings.gridUnit)) ∧
      (i.buttonSize = ButtonSize.ButtonDefault → bh = 2 * d.settings.gridUnit) ∧
      (i.buttonSize = ButtonSize.ButtonLarge →
        IsHalfTowardZero (5 * d.settings.gridUnit) bh
          ∧ (2 ∣ d.settings.gridUnit → 2 * bh = 5 * d.settings.gridUnit)) ∧
      (i.buttonSize = ButtonSize.ButtonVeryLarge →
        IsHalfTowardZero (7 * d.settings.gridUnit) bh
          ∧ (2 ∣ d.settings.gridUnit → 2 * bh = 7 * d.settings.gridUnit)) ∧
      (∀ raw, i.buttonSize = ButtonSize.other raw → bh = 2 * d.settings.gridUnit) := by
  have key : ∀ k : Int, IsHalfTowardZero (k * d.settings.gridUnit)
        (Int.tdiv (d.settings.gridUnit * k) 2)
      ∧ (2 ∣ d.settings.gridUnit →
        2 * Int.tdiv (d.settings.gridUnit * k) 2 = k * d.settings.gridUnit) := by
    intro k
    have hb := tdiv_two_bounds (d.settings.gridUnit * k)
    have hc : d.settings.gridUnit * k = k * d.settings.gridUnit := mul_comm _ _
    refine ⟨⟨fun hn => ?_, fun hn => ?_⟩, fun hdvd => ?_⟩
    · have := hb.2.2.1 (by omega)
      omega
    · have := hb.2.2.2 (by omega)
      omega
    · obtain ⟨m, hm⟩ := hdvd
      have e : d.settings.gridUnit * k = 2 * (m * k) := by rw [hm]; ring
      have hb2 := tdiv_two_bounds (2 * (m * k))
      rw [e] at hb ⊢
      rw [← hc, e]
      omega
  cases hs : i.buttonSize <;>
    simp only [buttonHeight, h, hs, Option.some.injEq, exists_eq_left', reduceCtorEq,
      false_implies, true_implies, implies_true, and_true, true_and, forall_const] <;>
    first
      | exact key _
      | exact mul_comm _ _
      | exact fun _ _ => mul_comm _ _

/-- C9, amended, at the small tier with grid unit 3. -/
theorem buttonHeight_tiers_witness :
    sampleOddGrid.m_internalSettings
      = some { sampleInternalSettings with buttonSize := ButtonSize.ButtonSmall } ∧
    ∃ bh, buttonHeight sampleOddGrid = some bh ∧
      (ButtonSize.ButtonSmall = ButtonSize.ButtonSmall →
        IsHalfTowardZero (3 * sampleOddGrid.settings.gridUnit) bh
          ∧ (2 ∣ sampleOddGrid.settings.gridUnit → 2 * bh = 3 * sampleOddGrid.settings.gridUnit)) ∧
      (ButtonSize.ButtonSmall = ButtonSize.ButtonDefault →
        bh = 2 * sampleOddGrid.settings.gridUnit) ∧
      (ButtonSize.ButtonSmall = ButtonSize.ButtonLarge →
        IsHalfTowardZero (5 * sampleOddGrid.settings.gridUnit) bh
          ∧ (2 ∣ sampleOddGrid.settings.gridUnit → 2 * bh = 5 * sampleOddGrid.settings.gridUnit)) ∧
      (ButtonSize.ButtonSmall = ButtonSize.ButtonVeryLarge →
        IsHalfTowardZero (7 * sampleOddGrid.settings.gridUnit) bh
          ∧ (2 ∣ sampleOddGrid.settings.gridUnit → 2 * bh = 7 * sampleOddGrid.settings.gridUnit)) ∧
      (∀ raw, ButtonSize.ButtonSmall = ButtonSize.other raw →
        bh = 2 * sampleOddGrid.settings.gridUnit) :=
  ⟨rfl, buttonHeight_tiers sampleOddGrid
    { sampleInternalSettings with buttonSize := ButtonSize.ButtonSmall } rfl⟩

theorem length_modifyFront (f : Button → Button) (l : List Button) :
    (modifyFront f l).length = l.length := by
  cases l <;> rfl

theorem length_modifyBack (f : Button → Button) (l : List Button) :
    (modifyBack f l).length = l.length := by
  induction l with
  | nil => rfl
  | cons a t ih =>
    cases t with
    | nil => rfl
    | cons c t => simp only [modifyBack, List.length_cons, ih]

/-- The function `updateButtonsGeometry` keeps the buttons of both groups, one for
one, and the frame margins. -/
theorem updateButtonsGeometry_keeps (K : Constants) (d d2 : Decoration) (bh : Int)
    (hb : buttonHeight d = some bh) (h2 : updateButtonsGeometry K d = some d2) :
    d2.m_leftButtons.buttons.length = d.m_leftButtons.buttons.length ∧
    d2.m_rightButtons.buttons.length = d.m_rightButtons.buttons.length ∧
    d2.borders = d.borders := by
  rw [updateButtonsGeometry_eq K d bh hb] at h2
  have h2 := (Option.some.inj h2).symm
  subst h2
  refine ⟨?_, ?_, rfl⟩
  · simp only [left_buttons]
    split
    · rw [length_modifyFront, List.length_map]
    · rw [List.length_map]
  · simp only [right_buttons]
    split
    · rw [length_modifyBack, List.length_map]
    · rw [List.length_map]

/-- Every button of either group leaves `updateButtonsGeometry` with the box height
`bHeight`, the vertical offset `verticalOffset` and the icon size `bWidth`. -/
theorem updateButtonsGeometry_buttons (K : Constants) (d d2 : Decoration) (bh : Int)
    (hb : buttonHeight d = some bh) (h2 : updateButtonsGeometry K d = some d2) :
    ∀ b ∈ d2.m_leftButtons.buttons ++ d2.m_rightButtons.buttons,
      b.geometry.height = updateButtonsGeometry.bHeight K d
        ∧ b.m_offset.y = updateButtonsGeometry.verticalOffset K d bh
        ∧ b.m_iconSize = ⟨bh, bh⟩ := by
  rw [updateButtonsGeometry_eq K d bh hb] at h2
  have h2 := (Option.some.inj h2).symm
  subst h2
  have heach : ∀ l : List Button, ∀ b ∈ l.map (updateButtonsGeometry.each K d bh),
      b.geometry.height = updateButtonsGeometry.bHeight K d
        ∧ b.m_offset.y = updateButtonsGeometry.verticalOffset K d bh
        ∧ b.m_iconSize = ⟨bh, bh⟩ := by
    intro l b hbm
    obtain ⟨a, _, rfl⟩ := List.mem_map.1 hbm
    exact ⟨rfl, rfl, rfl⟩
  intro b hbm
  rcases List.mem_append.1 hbm with hbm | hbm
  · simp only [left_buttons] at hbm
    split at hbm
    · rcases mem_modifyFront _ _ _ hbm with hm | ⟨a, ha, rfl⟩
      · exact heach _ _ hm
      · obtain ⟨_, e2, e3⟩ := heach _ _ ha
        exact ⟨rfl, e2, e3⟩
    · exact heach _ _ hbm
  · simp only [right_buttons] at hbm
    split at hbm
    · rcases mem_modifyBack _ _ _ hbm with hm | ⟨a, ha, rfl⟩
      · exact heach _ _ hm
      · obtain ⟨_, e2, e3⟩ := heach _ _ ha
        exact ⟨rfl, e2, e3⟩
    · exact heach _ _ hbm

/-- C10. After `recalculateBorders` followed by `updateButtonsGeometry` with the
title bar shown, both groups still hold the buttons they held, one for one, and
every one of them has box height `captionHeight()` plus the maximized top padding
and vertical offset that padding plus `(captionHeight() - buttonHeight())/2`;
this centering gap is non-negative, and the gap below the `buttonHeight()`-tall
icon exceeds the gap above it by 0 or 1. The caption band is the one of the
margins just set: `updateButtonsGeometry` leaves the margins alone. -/
theorem buttons_verticallyCentered (K : Constants) (d : Decoration) (i : InternalSettings)
    (h : d.m_internalSettings = some i) (hh : d.hideTitleBar = false) :
    ∃ d1 d2 bh, recalculateBorders K d = some d1 ∧ updateButtonsGeometry K d1 = some d2 ∧
      buttonHeight d1 = some bh ∧
      d1.m_leftButtons = d.m_leftButtons ∧ d1.m_rightButtons = d.m_rightButtons ∧
      d2.m_leftButtons.buttons.length = d.m_leftButtons.buttons.length ∧
      d2.m_rightButtons.buttons.length = d.m_rightButtons.buttons.length ∧
      d2.borders = d1.borders ∧ captionHeight K d2 = captionHeight K d1 ∧
      0 ≤ Int.tdiv (captionHeight K d1 - bh) 2 ∧
      0 ≤ (captionHeight K d1 - bh - Int.tdiv (captionHeight K d1 - bh) 2)
        - Int.tdiv (captionHeight K d1 - bh) 2 ∧
      (captionHeight K d1 - bh - Int.tdiv (captionHeight K d1 - bh) 2)
        - Int.tdiv (captionHeight K d1 - bh) 2 ≤ 1 ∧
      ∀ b ∈ d2.m_leftButtons.buttons ++ d2.m_rightButtons.buttons,
        b.geometry.height = captionHeight K d1
          + (if d1.isMaximized then d1.settings.smallSpacing * K.TitleBar_TopMargin else 0) ∧
        b.m_offset.y = (if d1.isMaximized then d1.settings.smallSpacing * K.TitleBar_TopMargin else 0)
          + Int.tdiv (captionHeight K d1 - bh) 2 := by
  obtain ⟨bh, hb⟩ := buttonHeight_isSome d i h
  have h1 := recalculateBorders_eq K d i bh h hb
  obtain ⟨d1, hd1⟩ : ∃ d1, recalculateBorders K d = some d1 := ⟨_, h1⟩
  have hb1 : buttonHeight d1 = some bh := by
    rw [h1] at hd1
    rw [← Option.some.inj hd1]
    exact hb
  have hcap : captionHeight K d1 = max d.captionTextHeight bh := by
    rw [h1] at hd1
    rw [← Option.some.inj hd1]
    simp only [captionHeight, Decoration.borderTop, hh, Bool.false_eq_true, if_false]
    ring
  obtain ⟨d2, hd2⟩ : ∃ d2, updateButtonsGeometry K d1 = some d2 :=
    ⟨_, updateButtonsGeometry_eq K d1 bh hb1⟩
  have hge : 0 ≤ captionHeight K d1 - bh := by
    rw [hcap]
    have := le_max_right d.captionTextHeight bh
    omega
  have hbd := tdiv_two_bounds (captionHeight K d1 - bh)
  have hbd2 := hbd.2.2.1 hge
  have hgl : d1.m_leftButtons = d.m_leftButtons := by
    rw [h1] at hd1
    rw [← Option.some.inj hd1]
  have hgr : d1.m_rightButtons = d.m_rightButtons := by
    rw [h1] at hd1
    rw [← Option.some.inj hd1]
  obtain ⟨kl, kr, kb⟩ := updateButtonsGeometry_keeps K d1 d2 bh hb1 hd2
  have hhide : d2.hideTitleBar = d1.hideTitleBar ∧ d2.settings = d1.settings := by
    have e := updateButtonsGeometry_eq K d1 bh hb1
    rw [hd2] at e
    rw [Option.some.inj e]
    exact ⟨rfl, rfl⟩
  have hcap2 : captionHeight K d2 = captionHeight K d1 := by
    simp only [captionHeight, Decoration.borderTop, kb, hhide.1, hhide.2]
  refine ⟨d1, d2, bh, hd1, hd2, hb1, hgl, hgr, by rw [kl, hgl], by rw [kr, hgr], kb, hcap2,
    hbd2.1, by omega, by omega, ?_⟩
  intro b hbm
  obtain ⟨e1, e2, _⟩ := updateButtonsGeometry_buttons K d1 d2 bh hb1 hd2 b hbm
  exact ⟨e1, e2⟩

/-- C10 at the sample window, two buttons in each group. -/
theorem buttons_verticallyCentered_witness :
    (sampleDecoration.m_internalSettings = some sampleInternalSettings ∧
      sampleDecoration.hideTitleBar = false) ∧
    ∃ d1 d2 bh, recalculateBorders sampleConstants sampleDecoration = some d1 ∧
      updateButtonsGeometry sampleConstants d1 = some d2 ∧
      buttonHeight d1 = some bh ∧
      d1.m_leftButtons = sampleDecoration.m_leftButtons ∧
      d1.m_rightButtons = sampleDecoration.m_rightButtons ∧
      d2.m_leftButtons.buttons.length = 2 ∧
      d2.m_rightButtons.buttons.length = 2 ∧
      d2.borders = d1.borders ∧ captionHeight sampleConstants d2 = captionHeight sampleConstants d1 ∧
      0 ≤ Int.tdiv (captionHeight sampleConstants d1 - bh) 2 ∧
      0 ≤ (captionHeight sampleConstants d1 - bh
          - Int.tdiv (captionHeight sampleConstants d1 - bh) 2)
        - Int.tdiv (captionHeight sampleConstants d1 - bh) 2 ∧
      (captionHeight sampleConstants d1 - bh
          - Int.tdiv (captionHeight sampleConstants d1 - bh) 2)
        - Int.tdiv (captionHeight sampleConstants d1 - bh) 2 ≤ 1 ∧
      ∀ b ∈ d2.m_leftButtons.buttons ++ d2.m_rightButtons.buttons,
        b.geometry.height = captionHeight sampleConstants d1
          + (if d1.isMaximized then
              d1.settings.smallSpacing * sampleConstants.TitleBar_TopMargin else 0) ∧
        b.m_offset.y = (if d1.isMaximized then
              d1.settings.smallSpacing * sampleConstants.TitleBar_TopMargin else 0)
          + Int.tdiv (captionHeight sampleConstants d1 - bh) 2 :=
  ⟨⟨rfl, rfl⟩,
    buttons_verticallyCentered sampleConstants sampleDecoration sampleInternalSettings rfl rfl⟩

/-! ## Title bar and button groups -/

/-- C11. `updateTitleBar` sets the title-bar rectangle to `(0, 0, clientWidth,
borderTop)` when the decoration is maximized and to `(m, t, clientWidth - 2*m,
borderTop - t)` otherwise, with `m = largeSpacing*TitleBar_SideMargin` and
`t = smallSpacing*TitleBar_TopMargin`; in both cases `y + height = borderTop` and
the inset on the right, `clientWidth - (x + width)`, equals the inset `x` on the
left. -/
theorem updateTitleBar_rect (K : Constants) (d : Decoration) :
    (updateTitleBar K d).titleBar =
      (if d.isMaximized then QRect.ofXYWH 0 0 d.client.width d.borders.top
        else QRect.ofXYWH (d.settings.largeSpacing * K.TitleBar_SideMargin)
          (d.settings.smallSpacing * K.TitleBar_TopMargin)
          (d.client.width - 2 * (d.settings.largeSpacing * K.TitleBar_SideMargin))
          (d.borders.top - d.settings.smallSpacing * K.TitleBar_TopMargin)) ∧
    (updateTitleBar K d).titleBar.y1 + (updateTitleBar K d).titleBar.height = d.borders.top ∧
    d.client.width - ((updateTitleBar K d).titleBar.left + (updateTitleBar K d).titleBar.width)
      = (updateTitleBar K d).titleBar.left := by
  cases hm : d.isMaximized with
  | true =>
    simp [updateTitleBar, Decoration.setTitleBar, Decoration.borderTop, QRect.ofXYWH,
      QRect.height, QRect.width, QRect.left, hm]
  | false =>
    simp only [updateTitleBar, Decoration.setTitleBar, Decoration.borderTop, QRect.ofXYWH,
      QRect.height, QRect.width, QRect.left, hm, Bool.false_eq_true, if_false]
    refine ⟨?_, ?_, ?_⟩
    · rw [mul_assoc]
    · ring
    · ring

/-- C12. For a non-empty button group `updateButtonsGeometry` sets the left
group's x to `hPadding + borderLeft`, or to 0 when the decoration is maximized
horizontally, and sets the right group's x so that its right edge, x plus the
group's width, is `W - hPadding - borderRight`, or exactly `W` when maximized
horizontally; the group's y is 0 when the decoration is maximized and
`smallSpacing*TitleBar_TopMargin` otherwise. -/
theorem updateButtonsGeometry_groups (K : Constants) (d : Decoration) (i : InternalSettings)
    (h : d.m_internalSettings = some i) :
    ∃ d2, updateButtonsGeometry K d = some d2 ∧
      (d.m_leftButtons.buttons ≠ [] →
        d2.m_leftButtons.geometry.x =
          (if d.isMaximizedHorizontally then 0
            else d.settings.smallSpacing * K.TitleBar_SideMargin + d.borders.left) ∧
        d2.m_leftButtons.geometry.y =
          (if d.isMaximized then 0 else d.settings.smallSpacing * K.TitleBar_TopMargin)) ∧
      (d.m_rightButtons.buttons ≠ [] →
        d2.m_rightButtons.geometry.x + d2.m_rightButtons.geometry.width =
          (if d.isMaximizedHorizontally then d.size.width
            else d.size.width - d.settings.smallSpacing * K.TitleBar_SideMargin
              - d.borders.right) ∧
        d2.m_rightButtons.geometry.y =
          (if d.isMaximized then 0 else d.settings.smallSpacing * K.TitleBar_TopMargin)) := by
  obtain ⟨bh, hb⟩ := buttonHeight_isSome d i h
  refine ⟨_, updateButtonsGeometry_eq K d bh hb, ?_, ?_⟩
  · intro hne
    obtain ⟨a, t, hat⟩ := List.exists_cons_of_ne_nil hne
    cases hH : d.isMaximizedHorizontally <;>
      simp [updateButtonsGeometry.left, DecorationButtonGroup.setPos,
        DecorationButtonGroup.setSpacing, Decoration.borderLeft, hat, hH]
  · intro hne
    obtain ⟨a, t, hat⟩ := List.exists_cons_of_ne_nil hne
    cases hH : d.isMaximizedHorizontally
    · simp [updateButtonsGeometry.right, DecorationButtonGroup.setPos,
        DecorationButtonGroup.setSpacing, Decoration.borderRight, hat, hH]
      omega
    · simp [updateButtonsGeometry.right, DecorationButtonGroup.setPos,
        DecorationButtonGroup.setSpacing, hat, hH]

/-- C12 at the laid-out sample window. -/
theorem updateButtonsGeometry_groups_witness :
    sampleLaidOut.m_internalSettings = some sampleInternalSettings ∧
    ∃ d2, updateButtonsGeometry sampleConstants sampleLaidOut = some d2 ∧
      (sampleLaidOut.m_leftButtons.buttons ≠ [] →
        d2.m_leftButtons.geometry.x = 10 ∧ d2.m_leftButtons.geometry.y = 6) ∧
      (sampleLaidOut.m_rightButtons.buttons ≠ [] →
        d2.m_rightButtons.geometry.x + d2.m_rightButtons.geometry.width = 398 ∧
        d2.m_rightButtons.geometry.y = 6) :=
  ⟨rfl, updateButtonsGeometry_groups sampleConstants sampleLaidOut sampleInternalSettings rfl⟩

/-- C18. With a non-negative spacing unit, text height and padding constants, the
top margin `recalculateBorders` sets is 0 only when the title bar is suppressed
or the decoration is maximized; whenever the title bar is shown it is at least 1. -/
theorem recalculateBorders_top_zero (K : Constants) (d : Decoration) (i : InternalSettings)
    (h : d.m_internalSettings = some i) (hs : 0 ≤ d.settings.smallSpacing)
    (ht : 0 ≤ d.captionTextHeight) (hT : 0 ≤ K.TitleBar_TopMargin)
    (hB : 0 ≤ K.TitleBar_BottomMargin) :
    ∃ d1, recalculateBorders K d = some d1 ∧
      (d1.borders.top = 0 → d.hideTitleBar = true ∨ d.isMaximized = true) ∧
      (d.hideTitleBar = false → 1 ≤ d1.borders.top) := by
  obtain ⟨bh, hb⟩ := buttonHeight_isSome d i h
  have h1 : 0 ≤ d.settings.smallSpacing * K.TitleBar_BottomMargin := mul_nonneg hs hB
  have h2 : 0 ≤ d.settings.smallSpacing * K.TitleBar_TopMargin := mul_nonneg hs hT
  have h3 : d.captionTextHeight ≤ max d.captionTextHeight bh := le_max_left _ _
  have shown : d.hideTitleBar = false →
      1 ≤ (if d.hideTitleBar = true then
          (if (d.isMaximizedVertically || d.client.isShaded
            || (d.client.adjacentScreenEdges.BottomEdge && !i.drawBorderOnMaximizedWindows)) = true
          then 0 else borderSize K d true)
        else max d.captionTextHeight bh + d.settings.smallSpacing * K.TitleBar_BottomMargin
          + 1 + d.settings.smallSpacing * K.TitleBar_TopMargin) := by
    intro hh
    rw [if_neg (by simp [hh])]
    omega
  refine ⟨_, recalculateBorders_eq K d i bh h hb, ?_, shown⟩
  intro h0
  cases hh : d.hideTitleBar
  · have := shown hh
    exact absurd h0 (by
      show ¬ ((if d.hideTitleBar = true then _ else _) = (0 : Int))
      omega)
  · exact Or.inl rfl

/-- C18 at the sample window: the title bar is shown and the top margin is 37. -/
theorem recalculateBorders_top_zero_witness :
    (sampleDecoration.m_internalSettings = some sampleInternalSettings ∧
      0 ≤ sampleDecoration.settings.smallSpacing ∧ 0 ≤ sampleDecoration.captionTextHeight ∧
      0 ≤ sampleConstants.TitleBar_TopMargin ∧ 0 ≤ sampleConstants.TitleBar_BottomMargin) ∧
    ∃ d1, recalculateBorders sampleConstants sampleDecoration = some d1 ∧
      (d1.borders.top = 0 →
        sampleDecoration.hideTitleBar = true ∨ sampleDecoration.isMaximized = true) ∧
      (sampleDecoration.hideTitleBar = false → 1 ≤ d1.borders.top) :=
  ⟨⟨rfl, by decide, by decide, by decide, by decide⟩,
    recalculateBorders_top_zero sampleConstants sampleDecoration sampleInternalSettings rfl
      (by decide) (by decide) (by decide) (by decide)⟩

/-! ## The shared shadow -/

/-- A cache hit of `createShadow`: the decoration is handed the stored pointer and
nothing else changes. -/
theorem createShadow_hit (K : Constants) (w : World) (k : Nat) (d : Decoration)
    (i : InternalSettings) (hd : w.decorations[k]? = some d) (hi : d.m_internalSettings = some i)
    (hhit : (w.g_sShadow.isSome && w.g_shadowSize == i.shadowSize
      && w.g_shadowStrength == i.shadowStrength) = true) :
    createShadow K w k
      = some { w with decorations := w.decorations.set k (d.setShadow w.g_sShadow) } := by
  simp only [createShadow, hd, hi, hhit, if_true]

/-- A cache miss of `createShadow`: a new object is built, stored with its key and
handed to the decoration. -/
theorem createShadow_miss (K : Constants) (w : World) (k : Nat) (d : Decoration)
    (i : InternalSettings) (hd : w.decorations[k]? = some d) (hi : d.m_internalSettings = some i)
    (hmiss : (w.g_sShadow.isSome && w.g_shadowSize == i.shadowSize
      && w.g_shadowStrength == i.shadowStrength) = false) :
    createShadow K w k
      = some
        { w with
          g_shadowSize := i.shadowSize
          g_shadowStrength := i.shadowStrength
          shadows := w.shadows ++ [createShadow.decorationShadow K i.shadowSize i.shadowStrength
            d.m_colorSettings.palette.Shadow]
          g_sShadow := some w.shadows.length
          decorations := w.decorations.set k (d.setShadow (some w.shadows.length)) } := by
  simp only [createShadow, hd, hi, hmiss, Bool.false_eq_true, if_false]

/-- C13. On a cache miss `createShadow` computes the offset
`o = max(6*s/16, 2*Shadow_Overlap)`, builds a square image of side `2*s`, sets the
padding to `(s - o, s - o, s, s)` and the inner shadow rect to the square with
origin `(s - o + Shadow_Overlap, s - o + Shadow_Overlap)` and side
`o - 2*Shadow_Overlap`, which is the contrast rectangle `(s - o, s - o, o, o)` inset
by `Shadow_Overlap` on each side. -/
theorem createShadow_geometry (K : Constants) (w : World) (k : Nat) (d : Decoration)
    (i : InternalSettings) (hd : w.decorations[k]? = some d) (hi : d.m_internalSettings = some i)
    (hmiss : w.g_sShadow = none ∨ w.g_shadowSize ≠ i.shadowSize
      ∨ w.g_shadowStrength ≠ i.shadowStrength) :
    ∃ w1 sh o, createShadow K w k = some w1 ∧ w1.deref w1.g_sShadow = some sh ∧
      o = max (Int.tdiv (6 * i.shadowSize) 16) (2 * K.Shadow_Overlap) ∧
      sh.shadow.width = 2 * i.shadowSize ∧ sh.shadow.height = 2 * i.shadowSize ∧
      sh.padding = ⟨i.shadowSize - o, i.shadowSize - o, i.shadowSize, i.shadowSize⟩ ∧
      sh.innerShadowRect = QRect.ofXYWH (i.shadowSize - o + K.Shadow_Overlap)
        (i.shadowSize - o + K.Shadow_Overlap) (o - 2 * K.Shadow_Overlap)
        (o - 2 * K.Shadow_Overlap) ∧
      sh.shadow.contrastRect = QRect.ofXYWH (i.shadowSize - o) (i.shadowSize - o) o o ∧
      sh.innerShadowRect.x1 = sh.shadow.contrastRect.x1 + K.Shadow_Overlap ∧
      sh.innerShadowRect.y1 = sh.shadow.contrastRect.y1 + K.Shadow_Overlap ∧
      sh.innerShadowRect.x2 = sh.shadow.contrastRect.x2 - K.Shadow_Overlap ∧
      sh.innerShadowRect.y2 = sh.shadow.contrastRect.y2 - K.Shadow_Overlap := by
  have hm : (w.g_sShadow.isSome && w.g_shadowSize == i.shadowSize
      && w.g_shadowStrength == i.shadowStrength) = false := by
    rcases hmiss with h0 | h0 | h0
    · simp [h0]
    · simp [h0]
    · simp [h0]
  have ho : createShadow.shadowOffset K i.shadowSize
      = max (Int.tdiv (6 * i.shadowSize) 16) (2 * K.Shadow_Overlap) := by
    simp [createShadow.shadowOffset, mul_comm]
  refine ⟨_, createShadow.decorationShadow K i.shadowSize i.shadowStrength
      d.m_colorSettings.palette.Shadow, _, createShadow_miss K w k d i hd hi hm, ?_, rfl, rfl, rfl,
    ?_, ?_, ?_, ?_, ?_, ?_, ?_⟩
  · simp [World.deref]
  all_goals
    simp only [createShadow.decorationShadow, ho, QRect.ofXYWH]
  all_goals omega

/-- C13 at the sample process: the first request builds a 32 by 32 image with
offset 6, padding (10, 10, 16, 16) and contrast rectangle (10, 10, 6, 6). -/
theorem createShadow_geometry_witness :
    (sampleWorld.decorations[0]? = some sampleDecoration ∧
      sampleDecoration.m_internalSettings = some sampleInternalSettings ∧
      (sampleWorld.g_sShadow = none ∨ sampleWorld.g_shadowSize ≠ sampleInternalSettings.shadowSize
        ∨ sampleWorld.g_shadowStrength ≠ sampleInternalSettings.shadowStrength)) ∧
    ∃ w1 sh o, createShadow sampleConstants sampleWorld 0 = some w1 ∧
      w1.deref w1.g_sShadow = some sh ∧
      o = 6 ∧
      sh.shadow.width = 32 ∧ sh.shadow.height = 32 ∧
      sh.padding = ⟨16 - o, 16 - o, 16, 16⟩ ∧
      sh.innerShadowRect = QRect.ofXYWH (16 - o + 3) (16 - o + 3) (o - 6) (o - 6) ∧
      sh.shadow.contrastRect = QRect.ofXYWH (16 - o) (16 - o) o o ∧
      sh.innerShadowRect.x1 = sh.shadow.contrastRect.x1 + 3 ∧
      sh.innerShadowRect.y1 = sh.shadow.contrastRect.y1 + 3 ∧
      sh.innerShadowRect.x2 = sh.shadow.contrastRect.x2 - 3 ∧
      sh.innerShadowRect.y2 = sh.shadow.contrastRect.y2 - 3 :=
  ⟨⟨rfl, rfl, Or.inl rfl⟩,
    createShadow_geometry sampleConstants sampleWorld 0 sampleDecoration sampleInternalSettings
      rfl rfl (Or.inl rfl)⟩

/-- After `createShadow` the slot is filled and the key is the caller's. -/
theorem createShadow_key (K : Constants) (w w1 : World) (k : Nat) (d : Decoration)
    (i : InternalSettings) (hd : w.decorations[k]? = some d) (hi : d.m_internalSettings = some i)
    (h1 : createShadow K w k = some w1) :
    w1.g_sShadow.isSome = true ∧ w1.g_shadowSize = i.shadowSize
      ∧ w1.g_shadowStrength = i.shadowStrength := by
  cases hc : (w.g_sShadow.isSome && w.g_shadowSize == i.shadowSize
      && w.g_shadowStrength == i.shadowStrength)
  · rw [createShadow_miss K w k d i hd hi hc] at h1
    rw [← Option.some.inj h1]
    exact ⟨rfl, rfl, rfl⟩
  · rw [createShadow_hit K w k d i hd hi hc] at h1
    rw [← Option.some.inj h1]
    simp only [Bool.and_eq_true, beq_iff_eq] at hc
    exact ⟨hc.1.1, hc.1.2, hc.2⟩

/-- C14, as stated, fails: in the sample process the first request comes from the
decoration with the black shadow colour, the second, for the same size and
strength, from the one with the red shadow colour; afterwards both hold the
object at address 0, whose texture was built with black. -/
theorem createShadow_newestColor_counterexample :
    sampleRed.m_colorSettings.palette.Shadow = ⟨true, 255, 0, 0, 255⟩ ∧
    ((createShadow sampleConstants sampleWorld 0).bind
        (fun w1 => createShadow sampleConstants w1 1)).map
      (fun w2 => ((w2.deref w2.g_sShadow).map (fun sh => sh.shadow.shadowColor),
        w2.decorations.map (fun d => d.shadow)))
      = some (some ⟨true, 0, 0, 0, 255⟩, [some 0, some 0]) :=
  ⟨rfl, rfl⟩

/-- C14, amended. The key is the (size, strength) pair: of two successive requests
with the same size and strength the second is a cache hit whatever its shadow
colour; the slot, the shadow objects and so the shared texture stay as the first
request left them, the second caller is handed that instance, and when the first
request built the texture its colour is the first caller's. -/
theorem createShadow_sameKey (K : Constants) (w w1 : World) (k1 k2 : Nat)
    (d1 d2 : Decoration) (i1 i2 : InternalSettings)
    (hd1 : w.decorations[k1]? = some d1) (hi1 : d1.m_internalSettings = some i1)
    (h1 : createShadow K w k1 = some w1)
    (hd2 : w1.decorations[k2]? = some d2) (hi2 : d2.m_internalSettings = some i2)
    (hsize : i2.shadowSize = i1.shadowSize) (hstrength : i2.shadowStrength = i1.shadowStrength) :
    ∃ w2, createShadow K w1 k2 = some w2 ∧
      w2.g_sShadow = w1.g_sShadow ∧ w2.shadows = w1.shadows ∧
      w2.deref w2.g_sShadow = w1.deref w1.g_sShadow ∧
      w2.decorations[k2]? = some (d2.setShadow w1.g_sShadow) ∧
      ((w.g_sShadow = none ∨ w.g_shadowSize ≠ i1.shadowSize
          ∨ w.g_shadowStrength ≠ i1.shadowStrength) →
        ∃ sh, w2.deref w2.g_sShadow = some sh ∧
          sh.shadow.shadowColor = d1.m_colorSettings.palette.Shadow) := by
  obtain ⟨ks, kz, kt⟩ := createShadow_key K w w1 k1 d1 i1 hd1 hi1 h1
  have hhit : (w1.g_sShadow.isSome && w1.g_shadowSize == i2.shadowSize
      && w1.g_shadowStrength == i2.shadowStrength) = true := by
    simp [ks, kz, kt, hsize, hstrength]
  have hlt : k2 < w1.decorations.length := by
    rcases List.getElem?_eq_some.1 hd2 with ⟨hlt, _⟩
    exact hlt
  refine ⟨_, createShadow_hit K w1 k2 d2 i2 hd2 hi2 hhit, rfl, rfl, rfl, ?_, ?_⟩
  · simp [hlt]
  · intro hmiss
    have hm : (w.g_sShadow.isSome && w.g_shadowSize == i1.shadowSize
        && w.g_shadowStrength == i1.shadowStrength) = false := by
      rcases hmiss with h0 | h0 | h0
      · simp [h0]
      · simp [h0]
      · simp [h0]
    rw [createShadow_miss K w k1 d1 i1 hd1 hi1 hm] at h1
    rw [← Option.some.inj h1]
    exact ⟨createShadow.decorationShadow K i1.shadowSize i1.shadowStrength
      d1.m_colorSettings.palette.Shadow, by simp [World.deref], rfl⟩

/-- C14, amended, at the sample process: the black request, then the red one. -/
theorem createShadow_sameKey_witness :
    (sampleWorld.decorations[0]? = some sampleDecoration ∧
      sampleDecoration.m_internalSettings = some sampleInternalSettings ∧
      sampleRed.m_internalSettings = some sampleInternalSettings) ∧
    ∃ w1, createShadow sampleConstants sampleWorld 0 = some w1 ∧
      w1.decorations[1]? = some sampleRed ∧
      ∃ w2, createShadow sampleConstants w1 1 = some w2 ∧
        w2.g_sShadow = w1.g_sShadow ∧ w2.shadows = w1.shadows ∧
        w2.deref w2.g_sShadow = w1.deref w1.g_sShadow ∧
        w2.decorations[1]? = some (sampleRed.setShadow w1.g_sShadow) ∧
        ((sampleWorld.g_sShadow = none ∨ sampleWorld.g_shadowSize ≠ sampleInternalSettings.shadowSize
            ∨ sampleWorld.g_shadowStrength ≠ sampleInternalSettings.shadowStrength) →
          ∃ sh, w2.deref w2.g_sShadow = some sh ∧
            sh.shadow.shadowColor = sampleDecoration.m_colorSettings.palette.Shadow) :=
  ⟨⟨rfl, rfl, rfl⟩, _, rfl, rfl,
    createShadow_sameKey sampleConstants sampleWorld _ 0 1 sampleDecoration sampleRed
      sampleInternalSettings sampleInternalSettings rfl rfl rfl rfl rfl rfl rfl⟩

/-- C15. When decoration `k` calls `createShadow` with the stored key and a
non-empty slot, the shadow pointer it holds becomes the stored one, no object is
built, and the slot and the key are unchanged; otherwise a new instance is built,
stored in the slot under the new key, and the pointer the decoration holds becomes
the address of that instance. Nothing else of the decoration changes, and either
way every other decoration, with the shadow pointer it holds, and every shadow
object that existed are unchanged. -/
theorem createShadow_frame (K : Constants) (w : World) (k : Nat) (d : Decoration)
    (i : InternalSettings) (hd : w.decorations[k]? = some d)
    (hi : d.m_internalSettings = some i) :
    ∃ w1 dk, createShadow K w k = some w1 ∧ w1.decorations[k]? = some dk ∧
      { dk with shadow := d.shadow } = d ∧
      ((w.g_sShadow ≠ none ∧ w.g_shadowSize = i.shadowSize
          ∧ w.g_shadowStrength = i.shadowStrength) →
        dk.shadow = w.g_sShadow ∧ dk.shadow ≠ none ∧
        w1.shadows = w.shadows ∧ w1.g_sShadow = w.g_sShadow ∧
        w1.g_shadowSize = w.g_shadowSize ∧ w1.g_shadowStrength = w.g_shadowStrength) ∧
      (¬ (w.g_sShadow ≠ none ∧ w.g_shadowSize = i.shadowSize
          ∧ w.g_shadowStrength = i.shadowStrength) →
        dk.shadow = some w.shadows.length ∧
        w1.deref dk.shadow = some (createShadow.decorationShadow K i.shadowSize
          i.shadowStrength d.m_colorSettings.palette.Shadow) ∧
        w1.shadows = w.shadows ++ [createShadow.decorationShadow K i.shadowSize
          i.shadowStrength d.m_colorSettings.palette.Shadow] ∧
        w1.g_sShadow = some w.shadows.length ∧
        w1.g_shadowSize = i.shadowSize ∧ w1.g_shadowStrength = i.shadowStrength) ∧
      dk.shadow = w1.g_sShadow ∧
      (∀ j, j ≠ k → w1.decorations[j]? = w.decorations[j]?) ∧
      (∀ (a : Nat) (sh : DecorationShadow), w.shadows[a]? = some sh → w1.shadows[a]? = some sh) ∧
      w1.decorations.length = w.decorations.length ∧ w1.g_sDecoCount = w.g_sDecoCount := by
  have hlt : k < w.decorations.length := by
    rcases List.getElem?_eq_some.1 hd with ⟨hlt, _⟩
    exact hlt
  cases hc : (w.g_sShadow.isSome && w.g_shadowSize == i.shadowSize
      && w.g_shadowStrength == i.shadowStrength)
  · have hnot : ¬ (w.g_sShadow ≠ none ∧ w.g_shadowSize = i.shadowSize
        ∧ w.g_shadowStrength = i.shadowStrength) := by
      rintro ⟨a1, a2, a3⟩
      have : w.g_sShadow.isSome = true := Option.isSome_iff_ne_none.2 a1
      simp [this, a2, a3] at hc
    refine ⟨_, d.setShadow (some w.shadows.length), createShadow_miss K w k d i hd hi hc, ?_, rfl,
      fun hyes => absurd hyes hnot, fun _ => ⟨rfl, ?_, rfl, rfl, rfl, rfl⟩, rfl, ?_, ?_, ?_, rfl⟩
    · simp [hlt]
    · simp [World.deref, Decoration.setShadow]
    · intro j hj
      simp [List.getElem?_set_ne (Ne.symm hj)]
    · intro a sh ha
      have hla : a < w.shadows.length := by
        rcases List.getElem?_eq_some.1 ha with ⟨hla, _⟩
        exact hla
      simp only [List.getElem?_append_left hla, ha]
    · simp
  · have hyes : w.g_sShadow ≠ none ∧ w.g_shadowSize = i.shadowSize
        ∧ w.g_shadowStrength = i.shadowStrength := by
      simp only [Bool.and_eq_true, beq_iff_eq] at hc
      exact ⟨Option.isSome_iff_ne_none.1 hc.1.1, hc.1.2, hc.2⟩
    refine ⟨_, d.setShadow w.g_sShadow, createShadow_hit K w k d i hd hi hc, ?_, rfl,
      fun _ => ⟨rfl, hyes.1, rfl, rfl, rfl, rfl⟩, fun hnot => absurd hyes hnot, rfl, ?_, ?_, ?_,
      rfl⟩
    · simp [hlt]
    · intro j hj
      simp [List.getElem?_set_ne (Ne.symm hj)]
    · intro a sh ha
      exact ha
    · simp

/-- C15 at the sample process: the first request, a miss; the caller then holds
the address 0 of the object just built. -/
theorem createShadow_frame_witness :
    (sampleWorld.decorations[0]? = some sampleDecoration ∧
      sampleDecoration.m_internalSettings = some sampleInternalSettings) ∧
    ∃ w1 dk, createShadow sampleConstants sampleWorld 0 = some w1 ∧
      w1.decorations[0]? = some dk ∧
      { dk with shadow := sampleDecoration.shadow } = sampleDecoration ∧
      ((sampleWorld.g_sShadow ≠ none ∧ sampleWorld.g_shadowSize = sampleInternalSettings.shadowSize
          ∧ sampleWorld.g_shadowStrength = sampleInternalSettings.shadowStrength) →
        dk.shadow = sampleWorld.g_sShadow ∧ dk.shadow ≠ none ∧
        w1.shadows = sampleWorld.shadows ∧ w1.g_sShadow = sampleWorld.g_sShadow ∧
        w1.g_shadowSize = sampleWorld.g_shadowSize ∧
        w1.g_shadowStrength = sampleWorld.g_shadowStrength) ∧
      (¬ (sampleWorld.g_sShadow ≠ none ∧ sampleWorld.g_shadowSize = sampleInternalSettings.shadowSize
          ∧ sampleWorld.g_shadowStrength = sampleInternalSettings.shadowStrength) →
        dk.shadow = some 0 ∧
        w1.deref dk.shadow = some (createShadow.decorationShadow sampleConstants 16 90
          sampleDecoration.m_colorSettings.palette.Shadow) ∧
        w1.shadows = sampleWorld.shadows ++ [createShadow.decorationShadow sampleConstants 16 90
          sampleDecoration.m_colorSettings.palette.Shadow] ∧
        w1.g_sShadow = some 0 ∧
        w1.g_shadowSize = 16 ∧ w1.g_shadowStrength = 90) ∧
      dk.shadow = w1.g_sShadow ∧
      (∀ j, j ≠ 0 → w1.decorations[j]? = sampleWorld.decorations[j]?) ∧
      (∀ (a : Nat) (sh : DecorationShadow),
        sampleWorld.shadows[a]? = some sh → w1.shadows[a]? = some sh) ∧
      w1.decorations.length = sampleWorld.decorations.length ∧
      w1.g_sDecoCount = sampleWorld.g_sDecoCount :=
  ⟨⟨rfl, rfl⟩,
    createShadow_frame sampleConstants sampleWorld 0 sampleDecoration sampleInternalSettings
      rfl rfl⟩

/-- C17, as stated, fails. With animations switched off the call on the idle,
active sample window requests a repaint; with animations on it starts the
animation. -/
theorem updateAnimationState_idle_counterexample :
    (sampleNoAnimations.m_animation.state = AnimationState.Stopped ∧
      sampleNoAnimations.client.isActive = true ∧ sampleNoAnimations.m_opacity = 1 ∧
      sampleNoAnimations.updateRequests = 0 ∧
      (updateAnimationState sampleNoAnimations).map (fun d => d.updateRequests) = some 1) ∧
    (sampleDecoration.m_animation.state = AnimationState.Stopped ∧
      sampleDecoration.client.isActive = true ∧ sampleDecoration.m_opacity = 1 ∧
      (updateAnimationState sampleDecoration).map (fun d => d.m_animation.state)
        = some AnimationState.Running) :=
  ⟨⟨rfl, rfl, rfl, rfl, rfl⟩, ⟨rfl, rfl, rfl, rfl⟩⟩

/-- C17, amended. In a state idle at the active endpoint (animation not running,
window active, opacity 1) `updateAnimationState` with animations disabled changes
nothing of the state and requests exactly one repaint; with animations enabled it
sets the direction to `Forward` and starts the animation. -/
theorem updateAnimationState_idle (d : Decoration) (i : InternalSettings)
    (hi : d.m_internalSettings = some i)
    (hidle : d.m_animation.state ≠ AnimationState.Running)
    (hactive : d.client.isActive = true) (hopacity : d.m_opacity = 1) :
    ∃ d1, updateAnimationState d = some d1 ∧
      (i.animationsEnabled = false →
        d1 = { d with updateRequests := d.updateRequests + 1 } ∧
        d1.m_opacity = 1 ∧ d1.m_animation = d.m_animation) ∧
      (i.animationsEnabled = true →
        d1.m_animation.direction = Direction.Forward ∧
        d1.m_animation.state = AnimationState.Running) := by
  cases he : i.animationsEnabled
  · refine ⟨_, by simp only [updateAnimationState, hi, he, Option.map_some']; rfl, ?_, ?_⟩
    · intro _
      exact ⟨rfl, hopacity, rfl⟩
    · intro hcontra
      exact absurd hcontra (by simp)
  · refine ⟨_, by simp only [updateAnimationState, hi, he, Option.map_some']; rfl, ?_, ?_⟩
    · intro hcontra
      exact absurd hcontra (by simp)
    · intro _
      simp [QPropertyAnimation.setDirection, QPropertyAnimation.start, hactive, hidle]

/-- C17, amended, at the sample window with animations switched off. -/
theorem updateAnimationState_idle_witness :
    (sampleNoAnimations.m_internalSettings
        = some { sampleInternalSettings with animationsEnabled := false } ∧
      sampleNoAnimations.m_animation.state ≠ AnimationState.Running ∧
      sampleNoAnimations.client.isActive = true ∧ sampleNoAnimations.m_opacity = 1) ∧
    ∃ d1, updateAnimationState sampleNoAnimations = some d1 ∧
      (false = false →
        d1 = { sampleNoAnimations with updateRequests := sampleNoAnimations.updateRequests + 1 } ∧
        d1.m_opacity = 1 ∧ d1.m_animation = sampleNoAnimations.m_animation) ∧
      (false = true →
        d1.m_animation.direction = Direction.Forward ∧
        d1.m_animation.state = AnimationState.Running) :=
  ⟨⟨rfl, by decide, rfl, rfl⟩,
    updateAnimationState_idle sampleNoAnimations
      { sampleInternalSettings with animationsEnabled := false } rfl (by decide) rfl rfl⟩

/-- C19, as stated, fails: the sample window with the title bar suppressed is
active and idle, yet `titleBarColor` is the inactive title-bar colour. -/
theorem titleBarColor_hidden_counterexample :
    sampleHiddenTitleBar.m_animation.state = AnimationState.Stopped ∧
    sampleHiddenTitleBar.client.isActive = true ∧
    sampleHiddenTitleBar.m_colorSettings.titleBar true = ⟨true, 71, 80, 87, 255⟩ ∧
    titleBarColor sampleColorUtils sampleHiddenTitleBar = ⟨true, 239, 240, 241, 255⟩ :=
  ⟨rfl, rfl, rfl, rfl⟩

/-- C19, amended. `titleBarColor()` is the inactive title-bar colour when the title
bar is suppressed; otherwise it is the mix of the inactive and the active
title-bar colours at weight `m_opacity` when the transition is running, and the
title-bar colour for the window's active flag when it is not. -/
theorem titleBarColor_cases (U : KColorUtils) (d : Decoration) :
    titleBarColor U d =
      if d.hideTitleBar then d.m_colorSettings.inactiveTitleBar
      else if d.m_animation.state = AnimationState.Running then
        U.mix d.m_colorSettings.inactiveTitleBar d.m_colorSettings.activeTitleBar d.m_opacity
      else if d.client.isActive then d.m_colorSettings.activeTitleBar
      else d.m_colorSettings.inactiveTitleBar := by
  unfold titleBarColor ColorSettings.titleBar
  cases d.hideTitleBar <;> simp

/-- The conversion of a non-negative `qreal` to `int` is its floor. -/
theorem qrealToInt_of_nonneg (x : ℚ) (h0 : 0 ≤ x) : qrealToInt x = ⌊x⌋ := by
  have hnum : 0 ≤ x.num := Rat.num_nonneg.2 h0
  unfold qrealToInt
  rw [Int.tdiv_eq_ediv hnum (Int.ofNat_nonneg _), Rat.floor_def]

/-- A non-negative `qreal` not above the integer `a` converts to an `int` between 0
and `a`. -/
theorem qrealToInt_bounds (x : ℚ) (a : Int) (h0 : 0 ≤ x) (ha : x ≤ a) :
    0 ≤ qrealToInt x ∧ qrealToInt x ≤ a := by
  rw [qrealToInt_of_nonneg x h0]
  refine ⟨Int.floor_nonneg.2 h0, ?_⟩
  have h1 : ((⌊x⌋ : Int) : ℚ) ≤ x := Int.floor_le x
  exact_mod_cast le_trans h1 ha

/-- Rounding to the nearest integer does not go below the floor. -/
theorem floor_le_roundHalfEven (t : ℚ) : ⌊t⌋ ≤ roundHalfEven t := by
  unfold roundHalfEven
  simp only
  split_ifs <;> omega

/-- Rounding to the nearest integer goes at most one above the floor. -/
theorem roundHalfEven_le_floor_succ (t : ℚ) : roundHalfEven t ≤ ⌊t⌋ + 1 := by
  unfold roundHalfEven
  simp only
  split_ifs <;> omega

/-- Rounding to the nearest integer stays above an integer below the value. -/
theorem le_roundHalfEven (t : ℚ) (n : Int) (h : (n : ℚ) ≤ t) : n ≤ roundHalfEven t :=
  le_trans (Int.le_floor.2 h) (floor_le_roundHalfEven t)

/-- Rounding to the nearest integer stays below an integer above the value. -/
theorem roundHalfEven_le (t : ℚ) (n : Int) (h : t ≤ (n : ℚ)) : roundHalfEven t ≤ n := by
  have hf : ⌊t⌋ ≤ n := by
    have h1 : ((⌊t⌋ : Int) : ℚ) ≤ t := Int.floor_le t
    exact_mod_cast le_trans h1 h
  rcases lt_or_eq_of_le hf with hlt | heq
  · have h2 := roundHalfEven_le_floor_succ t
    omega
  · have ht : t = (⌊t⌋ : ℚ) := le_antisymm (by rw [heq]; exact h) (Int.floor_le t)
    unfold roundHalfEven
    simp only
    rw [if_pos (by rw [← ht]; norm_num)]
    exact hf

/-- An integer less than a half away from a value is the value rounded. -/
theorem roundHalfEven_eq (t : ℚ) (m : Int) (h : |t - m| < 1 / 2) : roundHalfEven t = m := by
  rw [abs_lt] at h
  obtain ⟨h1, h2⟩ := h
  unfold roundHalfEven
  simp only
  have hfl := Int.floor_le t
  have hlf := Int.lt_floor_add_one t
  by_cases hm : (m : ℚ) ≤ t
  · have hf : ⌊t⌋ = m := by
      rw [Int.floor_eq_iff]
      constructor
      · exact hm
      · linarith
    rw [hf, if_pos (by linarith)]
  · push_neg at hm
    have hf : ⌊t⌋ = m - 1 := by
      rw [Int.floor_eq_iff]
      push_cast
      constructor <;> linarith
    rw [hf]
    push_cast
    rw [if_neg (by linarith), if_pos (by linarith)]
    ring

/-- Rounding to a `double` keeps a positive value below `2 ^ 52` on its side of
every integer: the integers of that range are `double`s. -/
theorem roundDouble_bounds (x : ℚ) (lo hi : Int) (hx0 : 0 < x) (hx : x < 2 ^ 52)
    (hlo : (lo : ℚ) ≤ x) (hhi : x ≤ (hi : ℚ)) :
    (lo : ℚ) ≤ roundDouble x ∧ roundDouble x ≤ (hi : ℚ) := by
  have habs : |x| = x := abs_of_pos hx0
  have hlog : Int.log 2 x < 52 :=
    (Int.lt_zpow_iff_log_lt (le_refl 2) hx0).1 (by exact_mod_cast hx)
  obtain ⟨k, hk⟩ : ∃ k : Nat, max (Int.log 2 x) (-1022) - 52 = -(k : Int) := by
    refine ⟨(52 - max (Int.log 2 x) (-1022)).toNat, ?_⟩
    have hmax : max (Int.log 2 x) (-1022) < 52 := max_lt hlog (by norm_num)
    omega
  have hulp : (2 : ℚ) ^ (max (Int.log 2 x) (-1022) - 52) = 1 / 2 ^ k := by
    rw [hk, zpow_neg, zpow_natCast, one_div]
  have hpos : (0 : ℚ) < 2 ^ k := by positivity
  have hr : roundDouble x = (roundHalfEven (x * 2 ^ k) : ℚ) / 2 ^ k := by
    unfold roundDouble
    simp only [if_neg (ne_of_gt hx0), if_pos (le_of_lt hx0), habs, hulp]
    field_simp
  rw [hr]
  constructor
  · rw [le_div_iff₀ hpos]
    have h1 : (lo * 2 ^ k : Int) ≤ roundHalfEven (x * 2 ^ k) := by
      apply le_roundHalfEven
      push_cast
      exact mul_le_mul_of_nonneg_right hlo (le_of_lt hpos)
    exact_mod_cast h1
  · rw [div_le_iff₀ hpos]
    have h1 : roundHalfEven (x * 2 ^ k) ≤ (hi * 2 ^ k : Int) := by
      apply roundHalfEven_le
      push_cast
      exact mul_le_mul_of_nonneg_right hhi (le_of_lt hpos)
    exact_mod_cast h1

/-- The `double` nearest a positive value of exponent `e`: the multiple `m` of
`2 ^ (e - 52)` that is less than half a spacing away. -/
theorem roundDouble_eq (x : ℚ) (e m : Int) (hx0 : 0 < x) (he : -1022 ≤ e)
    (h1 : (2 : ℚ) ^ e ≤ x) (h2 : x < (2 : ℚ) ^ (e + 1))
    (hm : |x / (2 : ℚ) ^ (e - 52) - m| < 1 / 2) :
    roundDouble x = m * (2 : ℚ) ^ (e - 52) := by
  have habs : |x| = x := abs_of_pos hx0
  have hlog : Int.log 2 x = e := by
    apply le_antisymm
    · have h3 := (Int.lt_zpow_iff_log_lt (le_refl 2) hx0).1 (by exact_mod_cast h2)
      omega
    · exact (Int.zpow_le_iff_le_log (le_refl 2) hx0).1 (by exact_mod_cast h1)
  unfold roundDouble
  simp only [if_neg (ne_of_gt hx0), if_pos (le_of_lt hx0), habs, hlog, max_eq_left he,
    roundHalfEven_eq _ _ hm, one_mul]

/-- Three products as the processor delivers them. At the `double` nearest 1/3 the
exact product with 255 is just below 85 and rounds to 85; at the `double` nearest
0.6 it is just below 153 and rounds to 153; at 1/2 it is 127.5, a `double`. -/
theorem roundDouble_samples :
    roundDouble (255 * (6004799503160661 / 18014398509481984)) = 85 ∧
    roundDouble (255 * (5404319552844595 / 9007199254740992)) = 153 ∧
    roundDouble (255 * (1 / 2)) = 255 / 2 := by
  refine ⟨?_, ?_, ?_⟩
  · rw [roundDouble_eq _ 6 5981343255101440 (by norm_num) (by norm_num) (by norm_num)
      (by norm_num) (by rw [abs_lt]; constructor <;> norm_num)]
    norm_num
  · rw [roundDouble_eq _ 7 5383208929591296 (by norm_num) (by norm_num) (by norm_num)
      (by norm_num) (by rw [abs_lt]; constructor <;> norm_num)]
    norm_num
  · rw [roundDouble_eq _ 6 8972014882652160 (by norm_num) (by norm_num) (by norm_num)
      (by norm_num) (by rw [abs_lt]; constructor <;> norm_num)]
    norm_num

/-- The `int` that a product in 0..`a`, with `a` at most 255, becomes once rounded
to a `double` and truncated: it lies between the floor and the ceiling of the
exact product, and between 0 and `a`. -/
theorem qrealToInt_roundDouble_bounds (x : ℚ) (a : Int) (h0 : 0 ≤ x) (ha : x ≤ a)
    (h255 : a ≤ 255) :
    ⌊x⌋ ≤ qrealToInt (roundDouble x) ∧ qrealToInt (roundDouble x) ≤ ⌈x⌉ ∧
    0 ≤ qrealToInt (roundDouble x) ∧ qrealToInt (roundDouble x) ≤ a := by
  rcases eq_or_lt_of_le h0 with hz | hpos
  · subst hz
    have hq : qrealToInt (roundDouble 0) = 0 := by
      simp [roundDouble, qrealToInt]
    have ha0 : (0 : Int) ≤ a := by exact_mod_cast ha
    rw [hq]
    simp [ha0]
  · have hlt : x < 2 ^ 52 := by
      have h1 : (a : ℚ) ≤ 255 := by exact_mod_cast h255
      linarith
    have hfc := roundDouble_bounds x ⌊x⌋ ⌈x⌉ hpos hlt (Int.floor_le x) (Int.le_ceil x)
    have h0a := roundDouble_bounds x 0 a hpos hlt (by exact_mod_cast h0) ha
    have hr0 : 0 ≤ roundDouble x := by exact_mod_cast h0a.1
    rw [qrealToInt_of_nonneg _ hr0]
    have hfl : ((⌊roundDouble x⌋ : Int) : ℚ) ≤ roundDouble x := Int.floor_le _
    refine ⟨Int.le_floor.2 hfc.1, ?_, Int.floor_nonneg.2 hr0, ?_⟩
    · exact_mod_cast le_trans hfl hfc.2
    · exact_mod_cast le_trans hfl h0a.2

/-- C20, as stated, fails: the sample window without separator is active and
idle, yet `outlineColor` is the invalid colour, not the highlight colour. -/
theorem outlineColor_separator_counterexample :
    sampleNoSeparator.m_animation.state = AnimationState.Stopped ∧
    sampleNoSeparator.client.isActive = true ∧
    sampleNoSeparator.m_colorSettings.palette.Highlight = ⟨true, 61, 174, 233, 255⟩ ∧
    outlineColor sampleNoSeparator = QColor.invalid ∧
    (outlineColor sampleNoSeparator).isValid = false :=
  ⟨rfl, rfl, rfl, rfl, rfl⟩

/-- C20, amended. `outlineColor()` is the invalid colour when no separator is
used. Otherwise: while the transition is running it is the highlight colour with
alpha the product `alpha*m_opacity`, rounded to a `double` and then truncated to
`int`; when idle it is the highlight colour itself if the window is active and the
invalid colour if it is not. For an opacity in 0..1 and a highlight alpha in 0..255
the running alpha lies between the floor and the ceiling of the exact product
`alpha*m_opacity`, and between 0 and the highlight's alpha; the other channels are
the highlight's. -/
theorem outlineColor_cases (d : Decoration) :
    (outlineColor d =
      if d.m_useSeparator then
        if d.m_animation.state = AnimationState.Running then
          d.m_colorSettings.palette.Highlight.setAlpha
            (qrealToInt (roundDouble (d.m_colorSettings.palette.Highlight.alpha * d.m_opacity)))
        else if d.client.isActive then d.m_colorSettings.palette.Highlight
        else QColor.invalid
      else QColor.invalid) ∧
    (d.m_useSeparator = true ∧ d.m_animation.state = AnimationState.Running ∧
        0 ≤ d.m_opacity ∧ d.m_opacity ≤ 1 ∧
        0 ≤ d.m_colorSettings.palette.Highlight.alpha ∧
        d.m_colorSettings.palette.Highlight.alpha ≤ 255 →
      (outlineColor d).alpha
        = qrealToInt (roundDouble (d.m_colorSettings.palette.Highlight.alpha * d.m_opacity)) ∧
      ⌊(d.m_colorSettings.palette.Highlight.alpha : ℚ) * d.m_opacity⌋ ≤ (outlineColor d).alpha ∧
      (outlineColor d).alpha ≤ ⌈(d.m_colorSettings.palette.Highlight.alpha : ℚ) * d.m_opacity⌉ ∧
      0 ≤ (outlineColor d).alpha ∧
      (outlineColor d).alpha ≤ d.m_colorSettings.palette.Highlight.alpha ∧
      (outlineColor d).valid = d.m_colorSettings.palette.Highlight.valid ∧
      (outlineColor d).red = d.m_colorSettings.palette.Highlight.red ∧
      (outlineColor d).green = d.m_colorSettings.palette.Highlight.green ∧
      (outlineColor d).blue = d.m_colorSettings.palette.Highlight.blue) := by
  constructor
  · unfold outlineColor
    cases d.m_useSeparator <;> simp
  · rintro ⟨hsep, hrun, ho0, ho1, ha0, ha1⟩
    have hx0 : (0 : ℚ) ≤ d.m_colorSettings.palette.Highlight.alpha * d.m_opacity :=
      mul_nonneg (by exact_mod_cast ha0) ho0
    have hx1 : (d.m_colorSettings.palette.Highlight.alpha : ℚ) * d.m_opacity
        ≤ (d.m_colorSettings.palette.Highlight.alpha : ℚ) := by
      have hq : (0 : ℚ) ≤ d.m_colorSettings.palette.Highlight.alpha := by exact_mod_cast ha0
      calc (d.m_colorSettings.palette.Highlight.alpha : ℚ) * d.m_opacity
          ≤ (d.m_colorSettings.palette.Highlight.alpha : ℚ) * 1 :=
            mul_le_mul_of_nonneg_left ho1 hq
        _ = (d.m_colorSettings.palette.Highlight.alpha : ℚ) := mul_one _
    obtain ⟨hfl, hce, hb0, hb1⟩ := qrealToInt_roundDouble_bounds _ _ hx0 hx1 ha1
    have he : outlineColor d = d.m_colorSettings.palette.Highlight.setAlpha
        (qrealToInt (roundDouble (d.m_colorSettings.palette.Highlight.alpha * d.m_opacity))) := by
      simp [outlineColor, hsep, hrun]
    have hal : (outlineColor d).alpha
        = qrealToInt (roundDouble (d.m_colorSettings.palette.Highlight.alpha * d.m_opacity)) := by
      rw [he]
      show max 0 (min _ 255) = _
      rw [min_eq_left (by omega), max_eq_right hb0]
    refine ⟨hal, ?_, ?_, ?_, ?_, ?_, ?_, ?_, ?_⟩
    · rw [hal]; exact hfl
    · rw [hal]; exact hce
    · rw [hal]; exact hb0
    · rw [hal]; exact hb1
    all_goals rw [he]; rfl

/-- C20, amended, at the sample window a third of the way through its transition:
the opacity is the `double` nearest 1/3, the exact product with the highlight alpha
255 is just below 85, the `double` product is 85, and the outline alpha is 85. -/
theorem outlineColor_cases_witness :
    (sampleThird.m_useSeparator = true ∧
      sampleThird.m_animation.state = AnimationState.Running ∧
      sampleThird.m_opacity = 6004799503160661 / 18014398509481984 ∧
      sampleThird.m_colorSettings.palette.Highlight.alpha = 255) ∧
    (outlineColor sampleThird).alpha = 85 ∧
    ⌊(255 : ℚ) * (6004799503160661 / 18014398509481984)⌋ = 84 ∧
    ⌊(sampleThird.m_colorSettings.palette.Highlight.alpha : ℚ) * sampleThird.m_opacity⌋
      ≤ (outlineColor sampleThird).alpha ∧
    (outlineColor sampleThird).alpha
      ≤ ⌈(sampleThird.m_colorSettings.palette.Highlight.alpha : ℚ) * sampleThird.m_opacity⌉ ∧
    0 ≤ (outlineColor sampleThird).alpha ∧ (outlineColor sampleThird).alpha ≤ 255 := by
  have h := (outlineColor_cases sampleThird).2
    ⟨rfl, rfl, by norm_num [sampleThird], by norm_num [sampleThird], by decide, by decide⟩
  have hp : ((sampleThird.m_colorSettings.palette.Highlight.alpha : Int) : ℚ)
      * sampleThird.m_opacity = 255 * (6004799503160661 / 18014398509481984) := by
    norm_num [sampleThird, sampleDecoration, sampleColorSettings]
  refine ⟨⟨rfl, rfl, rfl, rfl⟩, ?_, ?_, h.2.1, h.2.2.1, h.2.2.2.1, h.2.2.2.2.1⟩
  · rw [h.1, hp, roundDouble_samples.1]
    rfl
  · rw [Int.floor_eq_iff]
    constructor <;> norm_num

/-- The sample window half way through its transition: the product 127.5 is a
`double`, and the outline alpha is 127. -/
theorem outlineColor_sampleRunning : (outlineColor sampleRunning).alpha = 127 := by
  have he : outlineColor sampleRunning = sampleRunning.m_colorSettings.palette.Highlight.setAlpha
      (qrealToInt (roundDouble (sampleRunning.m_colorSettings.palette.Highlight.alpha
        * sampleRunning.m_opacity))) := by
    simp [outlineColor, sampleRunning, sampleDecoration]
  have hp : ((sampleRunning.m_colorSettings.palette.Highlight.alpha : Int) : ℚ)
      * sampleRunning.m_opacity = 255 * (1 / 2) := by
    norm_num [sampleRunning, sampleDecoration, sampleColorSettings]
  have hq : qrealToInt ((255 : ℚ) / 2) = 127 := by
    rw [qrealToInt_of_nonneg _ (by norm_num), Int.floor_eq_iff]
    constructor <;> norm_num
  rw [he, hp, roundDouble_samples.2.2, hq]
  rfl

/-- C21, as stated, fails: with animations switched off the sample window that
has just become inactive keeps opacity 1; only the repaint is requested. -/
theorem updateAnimationState_snap_counterexample :
    sampleDeactivated.client.isActive = false ∧ sampleDeactivated.m_opacity = 1 ∧
    sampleDeactivated.updateRequests = 0 ∧
    (updateAnimationState sampleDeactivated).map
      (fun d => (d.m_opacity, d.m_animation.state, d.updateRequests))
      = some (1, AnimationState.Stopped, 1) :=
  ⟨rfl, rfl, rfl, rfl⟩

/-- C21, amended. With animations disabled `updateAnimationState` requests exactly
one repaint and changes nothing else: the opacity, the direction and the state
of the animation stay as they are, so an idle engine stays idle. The colours of an
idle engine then are the ones for the window's active flag (the inactive
title-bar colour when the title bar is suppressed). -/
theorem updateAnimationState_disabled (U : KColorUtils) (d : Decoration) (i : InternalSettings)
    (hi : d.m_internalSettings = some i) (he : i.animationsEnabled = false) :
    ∃ d1, updateAnimationState d = some d1 ∧
      d1 = { d with updateRequests := d.updateRequests + 1 } ∧
      d1.m_opacity = d.m_opacity ∧ d1.m_animation = d.m_animation ∧
      d1.updateRequests = d.updateRequests + 1 ∧
      (d.m_animation.state ≠ AnimationState.Running →
        d1.m_animation.state ≠ AnimationState.Running ∧
        titleBarColor U d1 =
          (if d.hideTitleBar then d.m_colorSettings.inactiveTitleBar
            else if d.client.isActive then d.m_colorSettings.activeTitleBar
            else d.m_colorSettings.inactiveTitleBar) ∧
        fontColor U d1 =
          (if d.client.isActive then d.m_colorSettings.activeFont
            else d.m_colorSettings.inactiveFont)) := by
  refine ⟨d.update, by simp [updateAnimationState, hi, he], rfl, rfl, rfl, rfl, ?_⟩
  intro hidle
  refine ⟨hidle, ?_, ?_⟩
  · simp only [titleBarColor, Decoration.update, ColorSettings.titleBar, if_neg hidle]
    cases d.hideTitleBar <;> simp
  · simp only [fontColor, Decoration.update, ColorSettings.font, if_neg hidle]

/-- C21, amended, at the sample window that has just become inactive. -/
theorem updateAnimationState_disabled_witness :
    (sampleDeactivated.m_internalSettings
        = some { sampleInternalSettings with animationsEnabled := false } ∧
      false = false) ∧
    ∃ d1, updateAnimationState sampleDeactivated = some d1 ∧
      d1 = { sampleDeactivated with updateRequests := sampleDeactivated.updateRequests + 1 } ∧
      d1.m_opacity = sampleDeactivated.m_opacity ∧
      d1.m_animation = sampleDeactivated.m_animation ∧
      d1.updateRequests = sampleDeactivated.updateRequests + 1 ∧
      (sampleDeactivated.m_animation.state ≠ AnimationState.Running →
        d1.m_animation.state ≠ AnimationState.Running ∧
        titleBarColor sampleColorUtils d1 =
          (if sampleDeactivated.hideTitleBar then sampleDeactivated.m_colorSettings.inactiveTitleBar
            else if sampleDeactivated.client.isActive then
              sampleDeactivated.m_colorSettings.activeTitleBar
            else sampleDeactivated.m_colorSettings.inactiveTitleBar) ∧
        fontColor sampleColorUtils d1 =
          (if sampleDeactivated.client.isActive then sampleDeactivated.m_colorSettings.activeFont
            else sampleDeactivated.m_colorSettings.inactiveFont)) :=
  ⟨⟨rfl, rfl⟩,
    updateAnimationState_disabled sampleColorUtils sampleDeactivated
      { sampleInternalSettings with animationsEnabled := false } rfl rfl⟩

/-! ## Caption height and shadow bounds -/

/-- C23. On the top margin `recalculateBorders` has just set, `captionHeight()` is
`max(textHeight, buttonHeight())` when the title bar is shown, the bottom padding,
the outline pixel and the top padding being taken off again, and it is the top
margin itself when the title bar is suppressed. -/
theorem captionHeight_recalculateBorders (K : Constants) (d : Decoration)
    (i : InternalSettings) (h : d.m_internalSettings = some i) :
    ∃ d1 bh, recalculateBorders K d = some d1 ∧ buttonHeight d = some bh ∧
      (d.hideTitleBar = false →
        captionHeight K d1 = max d.captionTextHeight bh ∧
        d1.borders.top = captionHeight K d1 + d.settings.smallSpacing * K.TitleBar_BottomMargin
          + 1 + d.settings.smallSpacing * K.TitleBar_TopMargin) ∧
      (d.hideTitleBar = true → captionHeight K d1 = d1.borders.top) := by
  obtain ⟨bh, hb⟩ := buttonHeight_isSome d i h
  refine ⟨_, bh, recalculateBorders_eq K d i bh h hb, hb, ?_, ?_⟩
  · intro hh
    simp only [captionHeight, Decoration.borderTop, hh, Bool.false_eq_true, if_false]
    constructor <;> ring
  · intro hh
    simp only [captionHeight, Decoration.borderTop, hh, if_true]

/-- C23 at the sample window: the caption band is 24 pixels high. -/
theorem captionHeight_recalculateBorders_witness :
    sampleDecoration.m_internalSettings = some sampleInternalSettings ∧
    ∃ d1 bh, recalculateBorders sampleConstants sampleDecoration = some d1 ∧
      buttonHeight sampleDecoration = some bh ∧
      (sampleDecoration.hideTitleBar = false →
        captionHeight sampleConstants d1 = max sampleDecoration.captionTextHeight bh ∧
        d1.borders.top = captionHeight sampleConstants d1
          + sampleDecoration.settings.smallSpacing * sampleConstants.TitleBar_BottomMargin
          + 1 + sampleDecoration.settings.smallSpacing * sampleConstants.TitleBar_TopMargin) ∧
      (sampleDecoration.hideTitleBar = true → captionHeight sampleConstants d1 = d1.borders.top) :=
  ⟨rfl,
    captionHeight_recalculateBorders sampleConstants sampleDecoration sampleInternalSettings rfl⟩

/-- C24. For a shadow size `s ≥ 0` (and a non-negative `Shadow_Overlap`) the inner
shadow rect `createShadow` sets has non-negative width and height,
`offset - 2*Shadow_Overlap`; the left and top padding `s - offset` is non-negative
exactly when `s ≥ 2*Shadow_Overlap`; and then the inner rect lies inside the `2s` by
`2s` image. -/
theorem createShadow_bounds (K : Constants) (w : World) (k : Nat) (d : Decoration)
    (i : InternalSettings) (hd : w.decorations[k]? = some d) (hi : d.m_internalSettings = some i)
    (hmiss : w.g_sShadow = none ∨ w.g_shadowSize ≠ i.shadowSize
      ∨ w.g_shadowStrength ≠ i.shadowStrength)
    (hs : 0 ≤ i.shadowSize) (hOv : 0 ≤ K.Shadow_Overlap) :
    ∃ w1 sh, createShadow K w k = some w1 ∧ w1.deref w1.g_sShadow = some sh ∧
      sh.innerShadowRect.width
        = max (Int.tdiv (6 * i.shadowSize) 16) (2 * K.Shadow_Overlap) - 2 * K.Shadow_Overlap ∧
      sh.innerShadowRect.height = sh.innerShadowRect.width ∧
      0 ≤ sh.innerShadowRect.width ∧ 0 ≤ sh.innerShadowRect.height ∧
      (0 ≤ sh.padding.left ↔ 2 * K.Shadow_Overlap ≤ i.shadowSize) ∧
      (0 ≤ sh.padding.top ↔ 2 * K.Shadow_Overlap ≤ i.shadowSize) ∧
      (2 * K.Shadow_Overlap ≤ i.shadowSize →
        sh.shadow.width = 2 * i.shadowSize ∧ sh.shadow.height = 2 * i.shadowSize ∧
        0 ≤ sh.innerShadowRect.left ∧ 0 ≤ sh.innerShadowRect.y1 ∧
        sh.innerShadowRect.left + sh.innerShadowRect.width ≤ sh.shadow.width ∧
        sh.innerShadowRect.y1 + sh.innerShadowRect.height ≤ sh.shadow.height) := by
  have hm : (w.g_sShadow.isSome && w.g_shadowSize == i.shadowSize
      && w.g_shadowStrength == i.shadowStrength) = false := by
    rcases hmiss with h0 | h0 | h0
    · simp [h0]
    · simp [h0]
    · simp [h0]
  have ho : createShadow.shadowOffset K i.shadowSize
      = max (Int.tdiv (6 * i.shadowSize) 16) (2 * K.Shadow_Overlap) := by
    simp [createShadow.shadowOffset, mul_comm]
  have hdiv : Int.tdiv (6 * i.shadowSize) 16 = 6 * i.shadowSize / 16 :=
    Int.tdiv_eq_ediv (by omega) (by decide)
  have hle : Int.tdiv (6 * i.shadowSize) 16 ≤ i.shadowSize := by
    rw [hdiv]
    omega
  have h2 : 2 * K.Shadow_Overlap
      ≤ max (Int.tdiv (6 * i.shadowSize) 16) (2 * K.Shadow_Overlap) := le_max_right _ _
  have hmax : max (Int.tdiv (6 * i.shadowSize) 16) (2 * K.Shadow_Overlap) ≤ i.shadowSize
      ↔ 2 * K.Shadow_Overlap ≤ i.shadowSize := by
    rw [max_le_iff]
    exact ⟨fun hh => hh.2, fun hh => ⟨hle, hh⟩⟩
  refine ⟨_, createShadow.decorationShadow K i.shadowSize i.shadowStrength
      d.m_colorSettings.palette.Shadow, createShadow_miss K w k d i hd hi hm, ?_, ?_, ?_, ?_, ?_,
    ?_, ?_, ?_⟩
  · simp [World.deref]
  · simp only [createShadow.decorationShadow, ho, QRect.ofXYWH, QRect.width]
    omega
  · simp only [createShadow.decorationShadow, ho, QRect.ofXYWH, QRect.width, QRect.height]
  · simp only [createShadow.decorationShadow, ho, QRect.ofXYWH, QRect.width]
    omega
  · simp only [createShadow.decorationShadow, ho, QRect.ofXYWH, QRect.height]
    omega
  · simp only [createShadow.decorationShadow, ho]
    rw [← hmax]
    omega
  · simp only [createShadow.decorationShadow, ho]
    rw [← hmax]
    omega
  · intro hbig
    have hbig2 := hmax.2 hbig
    refine ⟨rfl, rfl, ?_, ?_, ?_, ?_⟩ <;>
      simp only [createShadow.decorationShadow, ho, QRect.ofXYWH, QRect.width, QRect.height,
        QRect.left] <;>
      omega

/-- C24 at the sample process: shadow size 16, overlap 3. -/
theorem createShadow_bounds_witness :
    (sampleWorld.decorations[0]? = some sampleDecoration ∧
      sampleDecoration.m_internalSettings = some sampleInternalSettings ∧
      (sampleWorld.g_sShadow = none ∨ sampleWorld.g_shadowSize ≠ sampleInternalSettings.shadowSize
        ∨ sampleWorld.g_shadowStrength ≠ sampleInternalSettings.shadowStrength) ∧
      0 ≤ sampleInternalSettings.shadowSize ∧ 0 ≤ sampleConstants.Shadow_Overlap) ∧
    ∃ w1 sh, createShadow sampleConstants sampleWorld 0 = some w1 ∧
      w1.deref w1.g_sShadow = some sh ∧
      sh.innerShadowRect.width = 0 ∧
      sh.innerShadowRect.height = sh.innerShadowRect.width ∧
      0 ≤ sh.innerShadowRect.width ∧ 0 ≤ sh.innerShadowRect.height ∧
      (0 ≤ sh.padding.left ↔ 2 * 3 ≤ (16 : Int)) ∧
      (0 ≤ sh.padding.top ↔ 2 * 3 ≤ (16 : Int)) ∧
      (2 * 3 ≤ (16 : Int) →
        sh.shadow.width = 32 ∧ sh.shadow.height = 32 ∧
        0 ≤ sh.innerShadowRect.left ∧ 0 ≤ sh.innerShadowRect.y1 ∧
        sh.innerShadowRect.left + sh.innerShadowRect.width ≤ sh.shadow.width ∧
        sh.innerShadowRect.y1 + sh.innerShadowRect.height ≤ sh.shadow.height) :=
  ⟨⟨rfl, rfl, Or.inl rfl, by decide, by decide⟩,
    createShadow_bounds sampleConstants sampleWorld 0 sampleDecoration sampleInternalSettings
      rfl rfl (Or.inl rfl) (by decide) (by decide)⟩

/-! ## Gradient stops -/

/-- A stop right of every stop present goes to the end. -/
theorem insertStop_append (stops : QGradientStops) (pos : ℚ) (color : QColor)
    (h : ∀ q ∈ stops, q.1 < pos) :
    QGradient.insertStop stops pos color = stops ++ [(pos, color)] := by
  induction stops with
  | nil => rfl
  | cons q rest ih =>
    obtain ⟨p, c⟩ := q
    have hp : p < pos := h (p, c) (List.mem_cons_self _ _)
    simp only [QGradient.insertStop, hp, if_true, List.cons_append]
    rw [ih (fun q hq => h q (List.mem_cons_of_mem _ hq))]

/-- A stop at the position of the last stop, right of all others, replaces it. -/
theorem insertStop_replace (stops : QGradientStops) (pos : ℚ) (old color : QColor)
    (h : ∀ q ∈ stops, q.1 < pos) :
    QGradient.insertStop (stops ++ [(pos, old)]) pos color = stops ++ [(pos, color)] := by
  induction stops with
  | nil => simp [QGradient.insertStop]
  | cons q rest ih =>
    obtain ⟨p, c⟩ := q
    have hp : p < pos := h (p, c) (List.mem_cons_self _ _)
    have hrest := ih (fun q hq => h q (List.mem_cons_of_mem _ hq))
    rw [List.cons_append, QGradient.insertStop, if_pos hp, hrest, List.cons_append]

/-- The loop of `createShadow` leaves one stop per index, in order. -/
theorem radialGradient_loop (M : StdMath) (shadowColor : QColor) (g_shadowStrength : Int)
    (n : Nat) (hn : n ≤ 10) :
    (List.range n).foldl
      (fun radialGradient (i : Nat) =>
        QGradient.setColorAt radialGradient ((i : ℚ) / 9)
          (createShadow.gradientStopColor shadowColor
            (qrealToInt (createShadow.alpha M ((i : ℚ) / 9) * g_shadowStrength))))
      []
    = (List.range n).map (fun (i : Nat) => (((i : ℚ) / 9),
        createShadow.gradientStopColor shadowColor
          (qrealToInt (createShadow.alpha M ((i : ℚ) / 9) * g_shadowStrength)))) := by
  induction n with
  | zero => rfl
  | succ n ih =>
    rw [List.range_succ, List.foldl_append, ih (by omega), List.map_append]
    simp only [List.foldl_cons, List.foldl_nil, List.map_cons, List.map_nil]
    have hn9 : (n : ℚ) ≤ 9 := by exact_mod_cast (by omega : n ≤ 9)
    have hrange : ¬ ((n : ℚ) / 9 > 1 ∨ (n : ℚ) / 9 < 0) := by
      rintro (h1 | h1)
      · have : (n : ℚ) / 9 ≤ 1 := by
          rw [div_le_one (by norm_num)]
          exact hn9
        linarith
      · have : (0 : ℚ) ≤ (n : ℚ) / 9 := div_nonneg (Nat.cast_nonneg n) (by norm_num)
        linarith
    rw [QGradient.setColorAt, if_neg hrange]
    apply insertStop_append
    intro q hq
    obtain ⟨m, hm, rfl⟩ := List.mem_map.1 hq
    have hmn : m < n := List.mem_range.1 hm
    show (m : ℚ) / 9 < (n : ℚ) / 9
    have : (m : ℚ) < n := by exact_mod_cast hmn
    exact div_lt_div_of_pos_right this (by norm_num)

/-- The gaussian weight lies between 0 and 1 for an exponential function that is
monotone, non-negative and 1 at 0. -/
theorem alpha_bounds (M : StdMath) (hexp0 : M.exp 0 = 1)
    (hmono : ∀ x y, x ≤ y → M.exp x ≤ M.exp y) (hnonneg : ∀ x, 0 ≤ M.exp x) (x : ℚ) :
    0 ≤ createShadow.alpha M x ∧ createShadow.alpha M x ≤ 1 := by
  refine ⟨hnonneg _, ?_⟩
  have hx : -x * x / 0.15 ≤ 0 := by
    have e : -x * x / 0.15 = -(x ^ 2 / 0.15) := by ring
    rw [e]
    have : (0 : ℚ) ≤ x ^ 2 / 0.15 := div_nonneg (sq_nonneg x) (by norm_num)
    linarith
  have := hmono _ _ hx
  rw [hexp0] at this
  exact this

/-- The code's stop alpha at index `i ≤ 8` is the specification's, and `setAlpha`
does not clamp it. -/
theorem stopColor_spec (M : StdMath) (hexp0 : M.exp 0 = 1)
    (hmono : ∀ x y, x ≤ y → M.exp x ≤ M.exp y) (hnonneg : ∀ x, 0 ≤ M.exp x)
    (shadowColor : QColor) (strength : Int) (h0 : 0 ≤ strength) (h255 : strength ≤ 255)
    (i : Nat) (hi : i ≤ 8) :
    createShadow.gradientStopColor shadowColor
        (qrealToInt (createShadow.alpha M ((i : ℚ) / 9) * strength))
      = { shadowColor with alpha := specStopAlpha M strength i } ∧
    0 ≤ specStopAlpha M strength i ∧ specStopAlpha M strength i ≤ strength := by
  obtain ⟨ha0, ha1⟩ := alpha_bounds M hexp0 hmono hnonneg ((i : ℚ) / 9)
  have hs0 : (0 : ℚ) ≤ strength := by exact_mod_cast h0
  have hv0 : 0 ≤ createShadow.alpha M ((i : ℚ) / 9) * strength := mul_nonneg ha0 hs0
  have hv1 : createShadow.alpha M ((i : ℚ) / 9) * strength ≤ strength := by
    calc createShadow.alpha M ((i : ℚ) / 9) * strength ≤ 1 * strength :=
          mul_le_mul_of_nonneg_right ha1 hs0
      _ = strength := one_mul _
  obtain ⟨hb0, hb1⟩ := qrealToInt_bounds _ _ hv0 hv1
  have hspec : specStopAlpha M strength i
      = qrealToInt (createShadow.alpha M ((i : ℚ) / 9) * strength) := by
    simp only [specStopAlpha, hi, if_true, createShadow.alpha]
    congr 1
    rw [mul_comm]
    congr 2
    ring
  rw [hspec]
  refine ⟨?_, hb0, hb1⟩
  simp only [createShadow.gradientStopColor, QColor.setAlpha]
  rw [min_eq_left (by omega), max_eq_right hb0]

/-- The stops `createShadow` builds are the specification's, one per index. -/
theorem radialGradient_spec (M : StdMath) (hexp0 : M.exp 0 = 1)
    (hmono : ∀ x y, x ≤ y → M.exp x ≤ M.exp y) (hnonneg : ∀ x, 0 ≤ M.exp x)
    (shadowColor : QColor) (strength : Int) (h0 : 0 ≤ strength) (h255 : strength ≤ 255) :
    createShadow.radialGradient M shadowColor strength
      = (List.range 10).map (fun (i : Nat) =>
          ((i : ℚ) / 9, { shadowColor with alpha := specStopAlpha M strength i })) := by
  have hloop := radialGradient_loop M shadowColor strength 10 (le_refl _)
  have hlt : ∀ q ∈ (List.range 9).map (fun (i : Nat) => (((i : ℚ) / 9),
      createShadow.gradientStopColor shadowColor
        (qrealToInt (createShadow.alpha M ((i : ℚ) / 9) * strength)))), q.1 < 1 := by
    intro q hq
    obtain ⟨m, hm, rfl⟩ := List.mem_map.1 hq
    have hm9 : m < 9 := List.mem_range.1 hm
    show (m : ℚ) / 9 < 1
    rw [div_lt_one (by norm_num)]
    exact_mod_cast hm9
  have h99 : ((9 : Nat) : ℚ) / 9 = 1 := by norm_num
  unfold createShadow.radialGradient
  simp only []
  rw [hloop, List.range_succ, List.map_append, List.map_append]
  simp only [List.map_cons, List.map_nil, h99]
  rw [QGradient.setColorAt, if_neg (by norm_num), insertStop_replace _ _ _ _ hlt]
  congr 1
  · apply List.map_congr_left
    intro i hi
    have hi8 : i ≤ 8 := by
      have := List.mem_range.1 hi
      omega
    rw [(stopColor_spec M hexp0 hmono hnonneg shadowColor strength h0 h255 i hi8).1]

/-- The specification's stop alphas start at the strength and never increase. -/
theorem specStopAlpha_monotone (M : StdMath) (hexp0 : M.exp 0 = 1)
    (hmono : ∀ x y, x ≤ y → M.exp x ≤ M.exp y) (hnonneg : ∀ x, 0 ≤ M.exp x)
    (strength : Int) (h0 : 0 ≤ strength) (h255 : strength ≤ 255) :
    specStopAlpha M strength 0 = strength ∧
    ∀ m n : Nat, m ≤ n → n ≤ 9 → specStopAlpha M strength n ≤ specStopAlpha M strength m := by
  have hs0 : (0 : ℚ) ≤ strength := by exact_mod_cast h0
  have hnn : ∀ m : Nat, 0 ≤ specStopAlpha M strength m := by
    intro m
    by_cases hm : m ≤ 8
    · exact (stopColor_spec M hexp0 hmono hnonneg ⟨true, 0, 0, 0, 255⟩ strength h0 h255 m hm).2.1
    · simp [specStopAlpha, hm]
  constructor
  · have e : (-((((0 : Nat) : ℚ) / 9) ^ 2) / 0.15 : ℚ) = 0 := by norm_num
    simp only [specStopAlpha, Nat.zero_le, if_true, e, hexp0, mul_one]
    rw [qrealToInt_of_nonneg _ hs0, Int.floor_intCast]
  · intro m n hmn hn9
    by_cases hn : n ≤ 8
    · have hm : m ≤ 8 := le_trans hmn hn
      simp only [specStopAlpha, hn, hm, if_true]
      have hmq : (m : ℚ) ≤ n := by exact_mod_cast hmn
      have hm0 : (0 : ℚ) ≤ m := Nat.cast_nonneg m
      have harg : (-(((n : ℚ) / 9) ^ 2) / 0.15 : ℚ) ≤ -(((m : ℚ) / 9) ^ 2) / 0.15 := by
        have hsq : ((m : ℚ) / 9) ^ 2 ≤ ((n : ℚ) / 9) ^ 2 := by
          have hmn9 : (m : ℚ) / 9 ≤ (n : ℚ) / 9 :=
            div_le_div_of_nonneg_right hmq (by norm_num)
          have hm9 : (0 : ℚ) ≤ (m : ℚ) / 9 := div_nonneg hm0 (by norm_num)
          nlinarith
        have hd : ((m : ℚ) / 9) ^ 2 / 0.15 ≤ ((n : ℚ) / 9) ^ 2 / 0.15 :=
          div_le_div_of_nonneg_right hsq (by norm_num)
        have e1 : (-(((n : ℚ) / 9) ^ 2) / 0.15 : ℚ) = -(((n : ℚ) / 9) ^ 2 / 0.15) := by ring
        have e2 : (-(((m : ℚ) / 9) ^ 2) / 0.15 : ℚ) = -(((m : ℚ) / 9) ^ 2 / 0.15) := by ring
        rw [e1, e2]
        linarith
      have hle : (strength : ℚ) * M.exp (-(((n : ℚ) / 9) ^ 2) / 0.15)
          ≤ (strength : ℚ) * M.exp (-(((m : ℚ) / 9) ^ 2) / 0.15) :=
        mul_le_mul_of_nonneg_left (hmono _ _ harg) hs0
      rw [qrealToInt_of_nonneg _ (mul_nonneg hs0 (hnonneg _)),
        qrealToInt_of_nonneg _ (mul_nonneg hs0 (hnonneg _))]
      exact Int.floor_le_floor hle
    · have e : specStopAlpha M strength n = 0 := by simp [specStopAlpha, hn]
      rw [e]
      exact hnn m

/-- C22. For a shadow strength in 0..255 the radial gradient `createShadow` builds
has a stop at position `i/9` for each `i` in 0..9; its alpha is
`strength * exp(-(i/9)^2 / 0.15)` truncated to an integer, except that the stop at
position 1 is fully transparent; the stop at position 0 has alpha exactly
`strength`, and the alphas never increase with the position. Here `exp` is the
library's exponential, taken to be monotone, non-negative and 1 at 0. -/
theorem createShadow_gradient (M : StdMath) (hexp0 : M.exp 0 = 1)
    (hmono : ∀ x y, x ≤ y → M.exp x ≤ M.exp y) (hnonneg : ∀ x, 0 ≤ M.exp x)
    (K : Constants) (w : World) (k : Nat) (d : Decoration) (i : InternalSettings)
    (hd : w.decorations[k]? = some d) (hi : d.m_internalSettings = some i)
    (hmiss : w.g_sShadow = none ∨ w.g_shadowSize ≠ i.shadowSize
      ∨ w.g_shadowStrength ≠ i.shadowStrength)
    (h0 : 0 ≤ i.shadowStrength) (h255 : i.shadowStrength ≤ 255) :
    ∃ w1 sh, createShadow K w k = some w1 ∧ w1.deref w1.g_sShadow = some sh ∧
      sh.shadow.gradientStops M
        = (List.range 10).map (fun (n : Nat) =>
            ((n : ℚ) / 9,
              { d.m_colorSettings.palette.Shadow with
                alpha := specStopAlpha M i.shadowStrength n })) ∧
      (∀ n : Nat, n ≤ 8 → specStopAlpha M i.shadowStrength n
        = qrealToInt (i.shadowStrength * M.exp (-(((n : ℚ) / 9) ^ 2) / 0.15))) ∧
      specStopAlpha M i.shadowStrength 9 = 0 ∧
      specStopAlpha M i.shadowStrength 0 = i.shadowStrength ∧
      (∀ m n : Nat, m ≤ n → n ≤ 9 →
        specStopAlpha M i.shadowStrength n ≤ specStopAlpha M i.shadowStrength m) := by
  have hm : (w.g_sShadow.isSome && w.g_shadowSize == i.shadowSize
      && w.g_shadowStrength == i.shadowStrength) = false := by
    rcases hmiss with hz | hz | hz
    · simp [hz]
    · simp [hz]
    · simp [hz]
  obtain ⟨hzero, hdecr⟩ := specStopAlpha_monotone M hexp0 hmono hnonneg i.shadowStrength h0 h255
  refine ⟨_, createShadow.decorationShadow K i.shadowSize i.shadowStrength
      d.m_colorSettings.palette.Shadow, createShadow_miss K w k d i hd hi hm, ?_, ?_, ?_, ?_,
    hzero, hdecr⟩
  · simp [World.deref]
  · exact radialGradient_spec M hexp0 hmono hnonneg _ _ h0 h255
  · intro n hn
    simp only [specStopAlpha, hn, if_true]
  · simp [specStopAlpha]

/-- The stand-in exponential is 1 at 0, monotone and non-negative. -/
theorem sampleMath_exp : sampleMath.exp 0 = 1 ∧
    (∀ x y, x ≤ y → sampleMath.exp x ≤ sampleMath.exp y) ∧ ∀ x, 0 ≤ sampleMath.exp x := by
  refine ⟨by simp [sampleMath], ?_, ?_⟩
  · intro x y hxy
    simp only [sampleMath]
    by_cases hx : 0 ≤ x
    · have hy : 0 ≤ y := le_trans hx hxy
      rw [if_pos hx, if_pos hy]
      linarith
    · have hx1 : 0 < 1 - x := by linarith
      rw [if_neg hx]
      by_cases hy : 0 ≤ y
      · rw [if_pos hy]
        have : 1 / (1 - x) ≤ 1 := by
          rw [div_le_one hx1]
          linarith
        linarith
      · rw [if_neg hy]
        have hy1 : 0 < 1 - y := by linarith
        exact one_div_le_one_div_of_le hy1 (by linarith)
  · intro x
    simp only [sampleMath]
    by_cases hx : 0 ≤ x
    · rw [if_pos hx]
      linarith
    · rw [if_neg hx]
      have hx1 : 0 < 1 - x := by linarith
      exact le_of_lt (div_pos one_pos hx1)

/-- C22 at the sample process, strength 90, with the stand-in exponential. -/
theorem createShadow_gradient_witness :
    (sampleMath.exp 0 = 1 ∧
      (∀ x y, x ≤ y → sampleMath.exp x ≤ sampleMath.exp y) ∧ (∀ x, 0 ≤ sampleMath.exp x) ∧
      sampleWorld.decorations[0]? = some sampleDecoration ∧
      sampleDecoration.m_internalSettings = some sampleInternalSettings ∧
      (sampleWorld.g_sShadow = none ∨ sampleWorld.g_shadowSize ≠ sampleInternalSettings.shadowSize
        ∨ sampleWorld.g_shadowStrength ≠ sampleInternalSettings.shadowStrength) ∧
      0 ≤ sampleInternalSettings.shadowStrength ∧ sampleInternalSettings.shadowStrength ≤ 255) ∧
    ∃ w1 sh, createShadow sampleConstants sampleWorld 0 = some w1 ∧
      w1.deref w1.g_sShadow = some sh ∧
      sh.shadow.gradientStops sampleMath
        = (List.range 10).map (fun (n : Nat) =>
            ((n : ℚ) / 9,
              { sampleDecoration.m_colorSettings.palette.Shadow with
                alpha := specStopAlpha sampleMath sampleInternalSettings.shadowStrength n })) ∧
      (∀ n : Nat, n ≤ 8 → specStopAlpha sampleMath sampleInternalSettings.shadowStrength n
        = qrealToInt (sampleInternalSettings.shadowStrength
            * sampleMath.exp (-(((n : ℚ) / 9) ^ 2) / 0.15))) ∧
      specStopAlpha sampleMath sampleInternalSettings.shadowStrength 9 = 0 ∧
      specStopAlpha sampleMath sampleInternalSettings.shadowStrength 0
        = sampleInternalSettings.shadowStrength ∧
      (∀ m n : Nat, m ≤ n → n ≤ 9 →
        specStopAlpha sampleMath sampleInternalSettings.shadowStrength n
          ≤ specStopAlpha sampleMath sampleInternalSettings.shadowStrength m) :=
  ⟨⟨sampleMath_exp.1, sampleMath_exp.2.1, sampleMath_exp.2.2, rfl, rfl, Or.inl rfl,
      by decide, by decide⟩,
    createShadow_gradient sampleMath sampleMath_exp.1 sampleMath_exp.2.1 sampleMath_exp.2.2
      sampleConstants sampleWorld 0 sampleDecoration sampleInternalSettings rfl rfl (Or.inl rfl)
      (by decide) (by decide)⟩

end Breeze
